import Mathlib

/-!
Verification of the streaming speech-recognition client in
`src/voice-assistant/backend/custom_aliyun_stt.py` (class `AliyunSTTStream`).

The file has two layers:

* a functional model of the pure message-processing code: the JSON command
  messages built in `_send_audio_task` (lines 156-229) and the handling of a
  single inbound `result-generated` message in `_receive_task`
  (lines 260-284);

* a small-step interleaving model of the concurrent session: the audio
  sender coroutine (`_send_audio_task`), the result receiver coroutine
  (`_receive_task`), the `finally` block of `_run` (lines 141-146), and up
  to two concurrent callers of `aclose` (lines 311-335).  A run is the fold
  of a step function over an explicit schedule (a list of scheduler
  choices), so every property over all schedules is a property over all
  interleavings of the coroutines, and concrete schedules give executable
  counterexamples.
-/

/-! ## Python string helpers -/


/-- Whitespace characters stripped by Python `str.strip()`: exactly the
characters for which `str.isspace()` is true — the ASCII whitespace
U+0009-U+000D and U+0020, the file/group/record/unit separators
U+001C-U+001F, U+0085 (NEL), U+00A0 (no-break space), U+1680 (Ogham space
mark), U+2000-U+200A (typographic spaces), U+2028/U+2029 (line/paragraph
separators), U+202F, U+205F, and U+3000 (full-width ideographic space). -/
def isPySpace (c : Char) : Bool :=
  c == ' ' || c == '\t' || c == '\n' || c == '\r' || c == '\x0b' || c == '\x0c'
    || (0x1c ≤ c.toNat && c.toNat ≤ 0x1f) || c.toNat == 0x85 || c.toNat == 0xa0
    || c.toNat == 0x1680 || (0x2000 ≤ c.toNat && c.toNat ≤ 0x200a)
    || c.toNat == 0x2028 || c.toNat == 0x2029 || c.toNat == 0x202f
    || c.toNat == 0x205f || c.toNat == 0x3000

/-- Python `str.strip()`: drop leading and trailing whitespace. -/
def pyStrip (s : String) : String :=
  ⟨((s.data.dropWhile isPySpace).reverse.dropWhile isPySpace).reverse⟩

/-! ## Inbound message model

An inbound websocket message, as inspected by `_receive_task`.  A TEXT
message is parsed JSON; the code reads `data.get("header", {})`,
`header.get("event")`, `header.get("error_code")`, `header.get("error_message")`,
`data.get("payload", {}).get("output", {})` and `output["sentence"]` with
`sentence.get("text", "")`, `sentence.get("sentence_end", False)`,
`sentence.get("heartbeat", False)`.  Fields read through `.get` with a
default are modelled as `Option` plus the same default. -/

structure Sentence where
  text : Option String
  sentence_end : Option Bool
  heartbeat : Option Bool
  deriving DecidableEq, Repr

structure MsgOutput where
  sentence : Option Sentence
  deriving DecidableEq, Repr

structure MsgHeader where
  event : Option String
  error_code : Option String
  error_message : Option String
  deriving DecidableEq, Repr

structure TextData where
  header : MsgHeader
  output : MsgOutput
  deriving DecidableEq, Repr

/-- An inbound websocket message: TEXT with parsed JSON, an ERROR message, or
a CLOSED marker (the connection was closed by the peer). -/
inductive WsMsg
  | text (d : TextData)
  | wsError
  | closedMsg
  deriving DecidableEq, Repr

/-! ## Transcript events (livekit `stt.SpeechEvent`) -/

inductive SpeechEventType
  | INTERIM_TRANSCRIPT
  | FINAL_TRANSCRIPT
  deriving DecidableEq, Repr

structure SpeechData where
  language : String
  text : String
  confidence : ℚ
  deriving DecidableEq, Repr

structure SpeechEvent where
  type : SpeechEventType
  alternatives : List SpeechData
  deriving DecidableEq, Repr

/-- Events produced by the `result-generated` branch of
`AliyunSTTStream._receive_task` (lines 260-284) for one inbound message:
if the payload output has a `sentence`, take `text` stripped and
`sentence_end`; when the text is non-empty and `heartbeat` is not set,
emit one event, FINAL if `sentence_end` else INTERIM, with the session
language and confidence `0.9`; otherwise emit nothing. -/
def resultEvents (language : String) (output : MsgOutput) : List SpeechEvent :=
  match output.sentence with
  | none => []
  | some sentence =>
    let text := pyStrip (sentence.text.getD "")
    let sentence_end := sentence.sentence_end.getD false
    if text ≠ "" ∧ sentence.heartbeat.getD false = false then
      [{ type := if sentence_end then .FINAL_TRANSCRIPT else .INTERIM_TRANSCRIPT,
         alternatives := [{ language := language, text := text, confidence := 0.9 }] }]
    else []

/-! ## Outbound command messages

The JSON dict literals of `_send_audio_task`: the `run-task` command
(lines 157-180) and the `finish-task` command (lines 218-227).  The
`parameters` dict is kept as a key-value list so that the exact JSON key
names are part of the model. -/

inductive ParamVal
  | s (v : String)
  | b (v : Bool)
  | n (v : Nat)
  | strs (v : List String)
  deriving DecidableEq, Repr

structure CmdHeader where
  action : String
  task_id : String
  streaming : String
  deriving DecidableEq, Repr

structure RunTaskPayload where
  task_group : String
  task : String
  function : String
  model : String
  parameters : List (String × ParamVal)
  input : List (String × ParamVal)
  deriving DecidableEq, Repr

structure RunTaskMsg where
  header : CmdHeader
  payload : RunTaskPayload
  deriving DecidableEq, Repr

structure FinishTaskPayload where
  input : List (String × ParamVal)
  deriving DecidableEq, Repr

structure FinishTaskMsg where
  header : CmdHeader
  payload : FinishTaskPayload
  deriving DecidableEq, Repr

/-- The `run_task_msg` dict of `_send_audio_task` (lines 157-180), verbatim.
Note that the payload `model` and the `language_hints` parameter are string
literals in the source, independent of the configured model and language. -/
def run_task_msg (task_id : String) : RunTaskMsg :=
  { header := { action := "run-task", task_id := task_id, streaming := "duplex" },
    payload :=
      { task_group := "audio",
        task := "asr",
        function := "recognition",
        model := "paraformer-realtime-v2",
        parameters :=
          [("format", .s "pcm"),
           ("sample_rate", .n 16000),
           ("disfluency_removal_enabled", .b false),
           ("language_hints", .strs ["zh"]),
           ("semantic_punctuation_enabled", .b false),
           ("max_sentence_silence", .n 800),
           ("punctuation_prediction_enabled", .b true),
           ("inverse_text_normalization_enabled", .b true)],
        input := [] } }

/-- The `finish_task_msg` dict of `_send_audio_task` (lines 218-227). -/
def finish_task_msg (task_id : String) : FinishTaskMsg :=
  { header := { action := "finish-task", task_id := task_id, streaming := "duplex" },
    payload := { input := [] } }

/-! ## Interleaving model of the session

One session after a successful `ws_connect`.  Threads: the audio sender
`_send_audio_task`, the result receiver `_receive_task`, the `finally`
block of `_run` (which runs once both coroutines are done), and two
potential concurrent callers of `aclose` (closer 0 and closer 1).  Shared
state mirrors the instance attributes of `AliyunSTTStream`.  Every step is
one atomic region between two `await` suspension points of the source. -/

/-- Audio frame pushed by the caller; `data` stands for
`frame.data.tobytes()` (the raw PCM bytes). -/
structure Frame where
  data : List Nat
  deriving DecidableEq, Repr

/-- Observable operations on the outbound side of the websocket, in the
order they were performed. -/
inductive Act
  | sendRun (task_id : String)
  | sendAudio (bytes : List Nat)
  | sendFinish (task_id : String)
  | procStarted
  deriving DecidableEq, Repr

/-- Program counter of `_send_audio_task`: about to send `run-task`; blocked
in `asyncio.wait_for(self._task_started_event.wait(), timeout=10.0)`; in the
`async for frame in self._input_ch` loop; at the `finish-task` block after
the loop; returned. -/
inductive SPC
  | sendRunTask
  | waitStarted
  | sendLoop
  | finishBlock
  | sdone
  deriving DecidableEq, Repr

/-- How `_send_audio_task` returned: after sending `finish-task`; after
skipping it because `self._ws.closed`; via the `asyncio.TimeoutError`
branch; via `asyncio.CancelledError`. -/
inductive SOutcome
  | finishSent
  | finishSkippedWs
  | timedOut
  | cancelled
  deriving DecidableEq, Repr

/-- Program counter of `_receive_task`: in the `async for msg in self._ws`
loop, or returned. -/
inductive RPC
  | recvLoop
  | rdone
  deriving DecidableEq, Repr

/-- How `_receive_task` left its loop. -/
inductive ROutcome
  | finished
  | failed (error_code error_message : Option String)
  | wsErr
  | wsEOF
  | cancelled
  deriving DecidableEq, Repr

/-- Program counter of one `aclose` caller: `self._closed = True`;
`await self._input_ch.send(None)`; the `self._main_task` cancel-and-await
block; waiting inside `await self._main_task`; the guarded
`await self._ws.close()`; `self._event_ch.close()`; returned. -/
inductive CPC
  | setClosed
  | sendNone
  | cancelMain
  | awaitMain
  | closeWs
  | closeEventCh
  | cdone
  deriving DecidableEq, Repr

/-- Program counter of the `finally` block of `_run` (lines 141-146). -/
inductive FPC
  | finallyBlock
  | fdone
  deriving DecidableEq, Repr

/-- Session parameters and environment inputs.  `session_uuid` is the
`utils.shortuuid()` value of `self._task_id = f"task-{...}"` (line 88);
`sender_uuid` is the `str(uuid.uuid4())` value generated inside
`_send_audio_task` (line 153); both are opaque strings.  `model` and
`language` are the configured model name and language.  `frames0` is the
sequence of values the input channel will yield (`none` is the `None`
end-of-stream sentinel); `inputClosed` says whether the input channel is
closed after `frames0`, ending the `async for`.  `inbox0` is the sequence
of inbound websocket messages. -/
structure Cfg where
  model : String
  language : String
  session_uuid : String
  sender_uuid : String
  frames0 : List (Option Frame)
  inputClosed : Bool
  inbox0 : List WsMsg
  deriving DecidableEq, Repr

/-- The stream's `self._task_id` field (line 88): `f"task-{utils.shortuuid()}"`. -/
def sessionTaskId (cfg : Cfg) : String := "task-" ++ cfg.session_uuid

/-- The local `task_id` generated at line 153 of `_send_audio_task`:
`str(uuid.uuid4())`. -/
def senderTaskId (cfg : Cfg) : String := cfg.sender_uuid

/-- Shared session state.  `started` is `self._task_started_event`,
`closedFlag` is `self._closed`, `cancelReq` records `self._main_task.cancel()`,
`wsClosed` is `self._ws.closed`, `wsNone` records `self._ws = None`,
`items` is the pending content of `self._input_ch`, `inbox` the messages the
server will still deliver, `trace` the outbound transport operations,
`events` the content of `self._event_ch`, `teardown` the number of
effective underlying `ws.close()` teardowns performed by this process. -/
structure Sys where
  pcS : SPC
  pcR : RPC
  pcC0 : CPC
  pcC1 : CPC
  pcF : FPC
  started : Bool
  closedFlag : Bool
  cancelReq : Bool
  wsClosed : Bool
  wsNone : Bool
  items : List (Option Frame)
  inbox : List WsMsg
  trace : List Act
  events : List SpeechEvent
  eventChClosed : Bool
  teardown : Nat
  sOutcome : Option SOutcome
  rOutcome : Option ROutcome
  deriving DecidableEq, Repr

/-- Initial state, right after `ws_connect` succeeded and `asyncio.gather`
spawned the two coroutines. -/
def init (cfg : Cfg) : Sys :=
  { pcS := .sendRunTask, pcR := .recvLoop, pcC0 := .setClosed, pcC1 := .setClosed,
    pcF := .finallyBlock, started := false, closedFlag := false, cancelReq := false,
    wsClosed := false, wsNone := false, items := cfg.frames0, inbox := cfg.inbox0,
    trace := [], events := [], eventChClosed := false, teardown := 0,
    sOutcome := none, rOutcome := none }

/-- The main task (`_run`) is done: both gathered coroutines returned and the
`finally` block ran. -/
def mainDone (s : Sys) : Bool :=
  s.pcS == .sdone && s.pcR == .rdone && s.pcF == .fdone

/-- Scheduler choices: a normal step of the sender; the 10-second timeout of
`asyncio.wait_for` firing; cancellation delivered to the sender; a normal
step of the receiver; cancellation delivered to the receiver; the `finally`
block of `_run`; a step of closer 0 or closer 1. -/
inductive Choice
  | sStep
  | sTimeout
  | sCancel
  | rStep
  | rCancel
  | fStep
  | c0Step
  | c1Step
  deriving DecidableEq, Repr

/-- One step of `_send_audio_task`. -/
def senderStep (cfg : Cfg) (s : Sys) : Sys :=
  match s.pcS with
  | .sendRunTask =>
    -- line 183: await self._ws.send_str(json.dumps(run_task_msg))
    { s with trace := s.trace ++ [.sendRun (senderTaskId cfg)], pcS := .waitStarted }
  | .waitStarted =>
    -- line 188: the wait returns only once the event is set
    if s.started then { s with pcS := .sendLoop } else s
  | .sendLoop =>
    -- lines 196-214: obtain the next frame, then the break checks in order
    match s.items with
    | [] => if cfg.inputClosed then { s with pcS := .finishBlock } else s
    | item :: rest =>
      if s.closedFlag then { s with items := rest, pcS := .finishBlock }
      else
        match item with
        | none => { s with items := rest, pcS := .finishBlock }
        | some frame =>
          if ¬ s.wsClosed then
            { s with items := rest, trace := s.trace ++ [.sendAudio frame.data] }
          else { s with items := rest, pcS := .finishBlock }
  | .finishBlock =>
    -- lines 217-229: send finish-task unless the websocket is closed
    if ¬ s.wsClosed then
      { s with trace := s.trace ++ [.sendFinish (senderTaskId cfg)],
               sOutcome := some .finishSent, pcS := .sdone }
    else { s with sOutcome := some .finishSkippedWs, pcS := .sdone }
  | .sdone => s

/-- The `asyncio.TimeoutError` branch (lines 190-192): can fire only while
the sender is blocked waiting and the event is not set. -/
def senderTimeoutStep (s : Sys) : Sys :=
  if s.pcS == .waitStarted && !s.started then
    { s with sOutcome := some .timedOut, pcS := .sdone }
  else s

/-- Cancellation delivered to the sender at an await point (lines 231-233:
the `except asyncio.CancelledError` handler re-raises, so the finish block
is skipped). -/
def senderCancelStep (s : Sys) : Sys :=
  if s.cancelReq && !(s.pcS == .sdone) then
    { s with sOutcome := some .cancelled, pcS := .sdone }
  else s

/-- One step of `_receive_task`: process the next inbound message
(lines 247-301).  A CLOSED message also marks the websocket closed, as the
connection is gone. -/
def receiverStep (cfg : Cfg) (s : Sys) : Sys :=
  if s.pcR == .rdone then s
  else
    match s.inbox with
    | [] => s
    | m :: rest =>
      match m with
      | .text d =>
        match d.header.event with
        | some "task-started" =>
          { s with inbox := rest, started := true, trace := s.trace ++ [.procStarted] }
        | some "result-generated" =>
          { s with inbox := rest, events := s.events ++ resultEvents cfg.language d.output }
        | some "task-finished" =>
          { s with inbox := rest, rOutcome := some .finished, pcR := .rdone }
        | some "task-failed" =>
          { s with inbox := rest,
                   rOutcome := some (.failed d.header.error_code d.header.error_message),
                   pcR := .rdone }
        | _ => { s with inbox := rest }
      | .wsError => { s with inbox := rest, rOutcome := some .wsErr, pcR := .rdone }
      | .closedMsg =>
        { s with inbox := rest, rOutcome := some .wsEOF, pcR := .rdone, wsClosed := true }

/-- Cancellation delivered to the receiver (lines 303-305: re-raises). -/
def receiverCancelStep (s : Sys) : Sys :=
  if s.cancelReq && !(s.pcR == .rdone) then
    { s with rOutcome := some .cancelled, pcR := .rdone }
  else s

/-- The `finally` block of `_run` (lines 141-146): once both coroutines are
done, close the websocket if it is still open and set `self._ws = None`. -/
def finallyStep (s : Sys) : Sys :=
  if s.pcS == .sdone && s.pcR == .rdone && s.pcF == .finallyBlock then
    if ¬ s.wsClosed then
      { s with wsClosed := true, teardown := s.teardown + 1, wsNone := true, pcF := .fdone }
    else { s with wsNone := true, pcF := .fdone }
  else s

/-- One step of an `aclose` caller (lines 311-335), parameterised by that
caller's program counter; returns the new shared state and program counter. -/
def closerStep (s : Sys) (pc : CPC) : Sys × CPC :=
  match pc with
  | .setClosed => ({ s with closedFlag := true }, .sendNone)
  | .sendNone => ({ s with items := s.items ++ [none] }, .cancelMain)
  | .cancelMain =>
    if mainDone s then (s, .closeWs)
    else ({ s with cancelReq := true }, .awaitMain)
  | .awaitMain => if mainDone s then (s, .closeWs) else (s, .awaitMain)
  | .closeWs =>
    if ¬ s.wsNone && ¬ s.wsClosed then
      ({ s with wsClosed := true, teardown := s.teardown + 1 }, .closeEventCh)
    else (s, .closeEventCh)
  | .closeEventCh => ({ s with eventChClosed := true }, .cdone)
  | .cdone => (s, .cdone)

/-- One scheduler step. -/
def step (cfg : Cfg) (s : Sys) : Choice → Sys
  | .sStep => senderStep cfg s
  | .sTimeout => senderTimeoutStep s
  | .sCancel => senderCancelStep s
  | .rStep => receiverStep cfg s
  | .rCancel => receiverCancelStep s
  | .fStep => finallyStep s
  | .c0Step => let (s', pc') := closerStep s s.pcC0; { s' with pcC0 := pc' }
  | .c1Step => let (s', pc') := closerStep s s.pcC1; { s' with pcC1 := pc' }

/-- Run the session under an explicit schedule. -/
def runSched (cfg : Cfg) (sch : List Choice) : Sys :=
  sch.foldl (step cfg) (init cfg)

/-! ## Trace observations -/

/-- Is this action a binary audio send? -/
def isAudio : Act → Bool
  | .sendAudio _ => true
  | _ => false

/-- Is this action the `finish-task` send? -/
def isFinish : Act → Bool
  | .sendFinish _ => true
  | _ => false

/-- Is this action the `run-task` send? -/
def isRun : Act → Bool
  | .sendRun _ => true
  | _ => false

/-- The sequence of binary payloads sent, in order. -/
def audioSent (l : List Act) : List (List Nat) :=
  l.filterMap fun a =>
    match a with
    | .sendAudio b => some b
    | _ => none

/-- Number of `finish-task` sends in the trace. -/
def finishCount (l : List Act) : Nat := l.countP isFinish

/-- Number of `run-task` sends in the trace. -/
def runCount (l : List Act) : Nat := l.countP isRun

/-- True when no binary audio send occurs before the receiver has processed
a `task-started` message: scanning from the front, `procStarted` is hit
before any `sendAudio`. -/
def startedBeforeAudio : List Act → Bool
  | [] => true
  | .procStarted :: _ => true
  | .sendAudio _ :: _ => false
  | .sendRun _ :: t => startedBeforeAudio t
  | .sendFinish _ :: t => startedBeforeAudio t

/-- True when no binary audio send occurs after a `finish-task` send. -/
def noAudioAfterFinish : List Act → Bool
  | [] => true
  | .sendFinish _ :: t => t.all fun b => !(isAudio b)
  | .sendRun _ :: t => noAudioAfterFinish t
  | .sendAudio _ :: t => noAudioAfterFinish t
  | .procStarted :: t => noAudioAfterFinish t

/-- Every wire command header carries the given task id. -/
def wireIdOk (tid : String) (a : Act) : Bool :=
  match a with
  | .sendRun i => i == tid
  | .sendFinish i => i == tid
  | _ => true

/-- All wire command headers in the trace carry the given task id. -/
def wireTaskIdsOk (tid : String) (l : List Act) : Bool := l.all (wireIdOk tid)

/-- The byte payloads of the frames before the first `None` sentinel (or all
of them when there is no sentinel): what a fully streamed session forwards. -/
def framesPrefix (l : List (Option Frame)) : List (List Nat) :=
  (l.takeWhile Option.isSome).filterMap fun o => o.map Frame.data

/-- Schedule choices of an undisturbed session: no `aclose` caller and no
cancellation. -/
def calm : Choice → Bool
  | .sStep => true
  | .sTimeout => true
  | .rStep => true
  | .fStep => true
  | _ => false

/-- All five threads have returned. -/
def allDone (s : Sys) : Bool :=
  s.pcS == .sdone && s.pcR == .rdone && s.pcF == .fdone
    && s.pcC0 == .cdone && s.pcC1 == .cdone

/-! ## The global invariant

Holds in every reachable state, under every schedule. -/

structure SessionInv (cfg : Cfg) (s : Sys) : Prop where
  sba : startedBeforeAudio s.trace = true
  started_mem : s.started = true → Act.procStarted ∈ s.trace
  loop_started : s.pcS = .sendLoop → s.started = true
  run_le : runCount s.trace ≤ 1
  run_zero : s.pcS = .sendRunTask → runCount s.trace = 0
  finish_count : finishCount s.trace = (if s.sOutcome = some .finishSent then 1 else 0)
  s_outcome : s.sOutcome.isSome = true ↔ s.pcS = .sdone
  r_outcome : s.rOutcome.isSome = true ↔ s.pcR = .rdone
  naf : noAudioAfterFinish s.trace = true
  early_no_audio : s.pcS = .sendRunTask ∨ s.pcS = .waitStarted → audioSent s.trace = []
  timeout_no_audio : s.sOutcome = some .timedOut → audioSent s.trace = []
  wire_ids : wireTaskIdsOk (senderTaskId cfg) s.trace = true
  td_zero : s.wsClosed = false → s.teardown = 0
  td_one : s.wsClosed = true →
    s.teardown = 1 ∨ (s.rOutcome = some .wsEOF ∧ s.teardown = 0)
  ws_none_closed : s.wsNone = true → s.wsClosed = true
  eof_ws : s.rOutcome = some .wsEOF → s.wsClosed = true
  c0_ws : s.pcC0 = .closeEventCh ∨ s.pcC0 = .cdone → s.wsClosed = true
  c1_ws : s.pcC1 = .closeEventCh ∨ s.pcC1 = .cdone → s.wsClosed = true
  c0_cancel : s.pcC0 = .awaitMain → s.cancelReq = true
  c1_cancel : s.pcC1 = .awaitMain → s.cancelReq = true
  c0_main : s.pcC0 = .closeWs ∨ s.pcC0 = .closeEventCh ∨ s.pcC0 = .cdone →
    mainDone s = true ∨ s.cancelReq = true
  c1_main : s.pcC1 = .closeWs ∨ s.pcC1 = .closeEventCh ∨ s.pcC1 = .cdone →
    mainDone s = true ∨ s.cancelReq = true
  evch : s.eventChClosed = true → s.pcC0 = .cdone ∨ s.pcC1 = .cdone

/-! ## Invariant of an undisturbed (calm) run, for the FIFO property -/

structure CalmInv (cfg : Cfg) (s : Sys) : Prop where
  no_close : s.closedFlag = false
  no_cancel : s.cancelReq = false
  early_items : s.pcS = .sendRunTask ∨ s.pcS = .waitStarted →
    s.items = cfg.frames0 ∧ audioSent s.trace = []
  loop_rel : s.pcS = .sendLoop → s.wsClosed = false →
    audioSent s.trace ++ framesPrefix s.items = framesPrefix cfg.frames0
  finish_rel : s.pcS = .finishBlock → s.wsClosed = false →
    audioSent s.trace = framesPrefix cfg.frames0
  sent_rel : s.sOutcome = some .finishSent → audioSent s.trace = framesPrefix cfg.frames0

/-! ## Concrete inbound messages and configurations for witnesses -/

def taskStartedMsg : WsMsg :=
  .text { header := { event := some "task-started", error_code := none, error_message := none },
          output := { sentence := none } }

def resultMsg (text : String) (sentence_end : Bool) : WsMsg :=
  .text { header := { event := some "result-generated", error_code := none,
                      error_message := none },
          output := { sentence := some { text := some text,
                                         sentence_end := some sentence_end,
                                         heartbeat := none } } }

def taskFinishedMsg : WsMsg :=
  .text { header := { event := some "task-finished", error_code := none, error_message := none },
          output := { sentence := none } }

def taskFailedMsg (error_code error_message : String) : WsMsg :=
  .text { header := { event := some "task-failed", error_code := some error_code,
                      error_message := some error_message },
          output := { sentence := none } }

def senHb : Sentence := { text := some "a", sentence_end := some false, heartbeat := some true }

def senHello : Sentence := { text := some "hello", sentence_end := some false, heartbeat := none }

def senDone : Sentence := { text := some "done", sentence_end := some true, heartbeat := none }

/-- C3 counterexample: the claim says the finish-task command is sent exactly
once per session lifetime, and that on cancellation the Audio Sender sends it
exactly once (skipped only if the Transport is already closed).  In this run
`aclose` is called once while the sender is still waiting for the start
acknowledgment; the cancellation makes `_send_audio_task` re-raise
`asyncio.CancelledError` (lines 231-233), skipping the finish-task block even
though the websocket is still open at that point, so the session completes
its close with zero finish-task sends. -/
def cexC3cfg : Cfg :=
  { model := "paraformer-realtime-v2", language := "zh-CN", session_uuid := "s3",
    sender_uuid := "u3", frames0 := [some { data := [1] }], inputClosed := false,
    inbox0 := [taskStartedMsg] }

def cexC3sched : List Choice :=
  [.sStep, .c0Step, .c0Step, .c0Step, .sCancel, .rCancel, .fStep, .c0Step, .c0Step, .c0Step]

/-- C4 counterexample: the claim says that on start-acknowledgment timeout
the session transitions to Failed with kind TASK_START_TIMEOUT.  In the code
the `except asyncio.TimeoutError` branch (lines 190-192) just prints and
returns: nothing records a failure, the output event stream is not closed
with an error, the Transport stays open, and the receiver keeps running —
here it even emits a transcript event after the timeout. -/
def cexC4cfg : Cfg :=
  { model := "paraformer-realtime-v2", language := "zh-CN", session_uuid := "s4",
    sender_uuid := "u4", frames0 := [], inputClosed := false,
    inbox0 := [resultMsg "hi" true] }

def witC4cfg : Cfg :=
  { model := "paraformer-realtime-v2", language := "zh-CN", session_uuid := "w4",
    sender_uuid := "v4", frames0 := [], inputClosed := false, inbox0 := [] }

def witC5cfg : Cfg :=
  { model := "paraformer-realtime-v2", language := "zh-CN", session_uuid := "w5",
    sender_uuid := "v5", frames0 := [some { data := [1, 2] }, some { data := [3] }, none],
    inputClosed := false, inbox0 := [taskStartedMsg] }

def witC5sched : List Choice :=
  [.sStep, .rStep, .sStep, .sStep, .sStep, .sStep, .sStep]

/-- C7 counterexample: the claim says that upon task-failed the Receiver
stops receiving and closes the output event stream with an error indication
carrying the remote error code and message.  In the code the task-failed
branch (lines 290-294) only prints the code and message and breaks:
`self._event_ch.close()` appears only in `aclose` (line 334), so after the
failure the event stream is still open and nothing was delivered on it. -/
def cexC7cfg : Cfg :=
  { model := "paraformer-realtime-v2", language := "zh-CN", session_uuid := "s7",
    sender_uuid := "u7", frames0 := [], inputClosed := false,
    inbox0 := [taskFailedMsg "X" "boom"] }

def witC7cfg : Cfg :=
  { model := "paraformer-realtime-v2", language := "zh-CN", session_uuid := "w7",
    sender_uuid := "v7", frames0 := [], inputClosed := false,
    inbox0 := [taskFinishedMsg] }

def witC7sched : List Choice :=
  [.rStep, .c0Step, .c0Step, .c0Step, .sCancel, .fStep, .c0Step, .c0Step, .c0Step]

def witC8cfg : Cfg :=
  { model := "paraformer-realtime-v2", language := "zh-CN", session_uuid := "w8",
    sender_uuid := "v8", frames0 := [], inputClosed := false,
    inbox0 := [taskStartedMsg] }

def witC8sched : List Choice :=
  [.sStep, .c0Step, .c0Step, .c0Step, .c1Step, .c1Step, .c1Step, .sCancel, .rCancel,
   .fStep, .c0Step, .c0Step, .c0Step, .c1Step, .c1Step, .c1Step]

/-- C9 counterexample: the claim says the identifier in the run-task and
finish-task headers is the session's task-identifier field.  The session
field is `self._task_id = f"task-{utils.shortuuid()}"` (line 88), but
`_send_audio_task` generates its own `task_id = str(uuid.uuid4())`
(line 153) and puts that one on the wire; `self._task_id` is never used. -/
def cexC9cfg : Cfg :=
  { model := "paraformer-realtime-v2", language := "zh-CN", session_uuid := "abc123",
    sender_uuid := "3f2504e0-4f89-11d3-9a0c-0305e82c3301", frames0 := [],
    inputClosed := false, inbox0 := [] }

def witC10out : MsgOutput :=
  { sentence := some { text := some " 早上好 ", sentence_end := some true, heartbeat := none } }

def witC10out2 : MsgOutput :=
  { sentence := some { text := some "   ", sentence_end := some false, heartbeat := none } }

example : pyStrip "  hi there\n" = "hi there" := by decide

example : resultEvents "zh-CN" { sentence := some { text := some " 你好 ", sentence_end := some true, heartbeat := none } }
    = [{ type := .FINAL_TRANSCRIPT,
         alternatives := [{ language := "zh-CN", text := "你好", confidence := 0.9 }] }] := by rfl

example : resultEvents "zh-CN" { sentence := some { text := some "  ", sentence_end := some true, heartbeat := none } } = [] := by rfl

/-! ## Lemmas about the trace observations -/

theorem audioSent_append (l l' : List Act) :
    audioSent (l ++ l') = audioSent l ++ audioSent l' := by
  simp [audioSent, List.filterMap_append]

theorem finishCount_append (l l' : List Act) :
    finishCount (l ++ l') = finishCount l + finishCount l' := by
  simp [finishCount, List.countP_append]

theorem runCount_append (l l' : List Act) :
    runCount (l ++ l') = runCount l + runCount l' := by
  simp [runCount, List.countP_append]

theorem wireTaskIdsOk_append (tid : String) (l l' : List Act) :
    wireTaskIdsOk tid (l ++ l') = (wireTaskIdsOk tid l && wireTaskIdsOk tid l') := by
  simp [wireTaskIdsOk, List.all_append]

theorem startedBeforeAudio_append_of_mem (a : Act) {l : List Act}
    (h : startedBeforeAudio l = true) (hm : Act.procStarted ∈ l) :
    startedBeforeAudio (l ++ [a]) = true := by
  induction l with
  | nil => cases hm
  | cons x t ih =>
    cases x with
    | procStarted => simp [startedBeforeAudio]
    | sendAudio b => simp [startedBeforeAudio] at h
    | sendRun i =>
      have hm' : Act.procStarted ∈ t := by
        rcases List.mem_cons.mp hm with h1 | h2
        · exact absurd h1 (by simp)
        · exact h2
      simpa [startedBeforeAudio] using ih (by simpa [startedBeforeAudio] using h) hm'
    | sendFinish i =>
      have hm' : Act.procStarted ∈ t := by
        rcases List.mem_cons.mp hm with h1 | h2
        · exact absurd h1 (by simp)
        · exact h2
      simpa [startedBeforeAudio] using ih (by simpa [startedBeforeAudio] using h) hm'

theorem startedBeforeAudio_append_of_not_audio {l : List Act} {a : Act}
    (h : startedBeforeAudio l = true) (ha : isAudio a = false) :
    startedBeforeAudio (l ++ [a]) = true := by
  induction l with
  | nil =>
    cases a <;> simp_all [startedBeforeAudio, isAudio]
  | cons x t ih =>
    cases x with
    | procStarted => simp [startedBeforeAudio]
    | sendAudio b => simp [startedBeforeAudio] at h
    | sendRun i => simpa [startedBeforeAudio] using ih (by simpa [startedBeforeAudio] using h)
    | sendFinish i => simpa [startedBeforeAudio] using ih (by simpa [startedBeforeAudio] using h)

theorem noAudioAfterFinish_of_no_finish {l : List Act} (h : finishCount l = 0) :
    noAudioAfterFinish l = true := by
  induction l with
  | nil => rfl
  | cons x t ih =>
    cases x with
    | sendFinish i => simp [finishCount, List.countP_cons, isFinish] at h
    | sendRun i =>
      simp only [finishCount, List.countP_cons, isFinish] at h
      simpa [noAudioAfterFinish] using ih (by simpa [finishCount] using h)
    | sendAudio b =>
      simp only [finishCount, List.countP_cons, isFinish] at h
      simpa [noAudioAfterFinish] using ih (by simpa [finishCount] using h)
    | procStarted =>
      simp only [finishCount, List.countP_cons, isFinish] at h
      simpa [noAudioAfterFinish] using ih (by simpa [finishCount] using h)

theorem noAudioAfterFinish_append_of_not_audio {l : List Act} {a : Act}
    (h : noAudioAfterFinish l = true) (ha : isAudio a = false) :
    noAudioAfterFinish (l ++ [a]) = true := by
  induction l with
  | nil => cases a <;> simp_all [noAudioAfterFinish, isAudio]
  | cons x t ih =>
    cases x with
    | sendFinish i =>
      simp only [noAudioAfterFinish] at h
      simp [noAudioAfterFinish, List.all_append, h, ha]
    | sendRun i => simpa [noAudioAfterFinish] using ih (by simpa [noAudioAfterFinish] using h)
    | sendAudio b => simpa [noAudioAfterFinish] using ih (by simpa [noAudioAfterFinish] using h)
    | procStarted => simpa [noAudioAfterFinish] using ih (by simpa [noAudioAfterFinish] using h)

theorem noAudioAfterFinish_append_finish {l : List Act} (tid : String)
    (h : finishCount l = 0) :
    noAudioAfterFinish (l ++ [Act.sendFinish tid]) = true := by
  induction l with
  | nil => simp [noAudioAfterFinish]
  | cons x t ih =>
    cases x with
    | sendFinish i => simp [finishCount, List.countP_cons, isFinish] at h
    | sendRun i =>
      simp only [finishCount, List.countP_cons, isFinish] at h
      simpa [noAudioAfterFinish] using ih (by simpa [finishCount] using h)
    | sendAudio b =>
      simp only [finishCount, List.countP_cons, isFinish] at h
      simpa [noAudioAfterFinish] using ih (by simpa [finishCount] using h)
    | procStarted =>
      simp only [finishCount, List.countP_cons, isFinish] at h
      simpa [noAudioAfterFinish] using ih (by simpa [finishCount] using h)

theorem framesPrefix_nil : framesPrefix [] = [] := rfl

theorem framesPrefix_cons_none (rest : List (Option Frame)) :
    framesPrefix (none :: rest) = [] := rfl

theorem framesPrefix_cons_some (f : Frame) (rest : List (Option Frame)) :
    framesPrefix (some f :: rest) = f.data :: framesPrefix rest := rfl

theorem init_inv (cfg : Cfg) : SessionInv cfg (init cfg) := by
  constructor <;> simp [init, startedBeforeAudio, noAudioAfterFinish, runCount, finishCount,
    audioSent, wireTaskIdsOk, mainDone]

theorem sOutcome_none {cfg : Cfg} {s : Sys} (h : SessionInv cfg s) (hpc : s.pcS ≠ .sdone) :
    s.sOutcome = none := by
  rcases hs : s.sOutcome with _ | v
  · rfl
  · exact absurd (h.s_outcome.mp (by simp [hs])) hpc

theorem rOutcome_none {cfg : Cfg} {s : Sys} (h : SessionInv cfg s) (hpc : s.pcR ≠ .rdone) :
    s.rOutcome = none := by
  rcases hs : s.rOutcome with _ | v
  · rfl
  · exact absurd (h.r_outcome.mp (by simp [hs])) hpc

theorem senderStep_inv {cfg : Cfg} {s : Sys} (h : SessionInv cfg s) :
    SessionInv cfg (senderStep cfg s) := by
  obtain ⟨sba, smem, ls, rle, rz, fc, so, ro, naf, early, tno, wire, tz, t1, wn, eo,
    c0w, c1w, c0c, c1c, c0m, c1m, ev⟩ := h
  have hmd : ∀ (q : SPC), s.pcS = q → q ≠ .sdone → mainDone s = false := by
    intro q hq hne
    simp [mainDone, hq]
    intro hh
    exact absurd hh hne
  cases hpc : s.pcS with
  | sendRunTask =>
    have hso : s.sOutcome = none := by
      rcases hs : s.sOutcome with _ | v
      · rfl
      · have := so.mp (by simp [hs]); rw [hpc] at this; cases this
    have hfc : finishCount s.trace = 0 := by simpa [hso] using fc
    have hrz : runCount s.trace = 0 := rz hpc
    simp only [senderStep, hpc]
    refine ⟨?_, ?_, ?_, ?_, ?_, ?_, ?_, ro, ?_, ?_, ?_, ?_, tz, t1, wn, eo,
      c0w, c1w, c0c, c1c, ?_, ?_, ev⟩
    · exact startedBeforeAudio_append_of_not_audio sba rfl
    · intro hst
      exact List.mem_append_left _ (smem hst)
    · intro hh; simp at hh
    · rw [runCount_append, hrz]
      simp [runCount, List.countP_cons, isRun]
    · intro hh; simp at hh
    · rw [finishCount_append, hfc]
      simp [finishCount, List.countP_cons, isFinish, hso]
    · simp [hso]
    · refine noAudioAfterFinish_of_no_finish ?_
      rw [finishCount_append, hfc]
      simp [finishCount, List.countP_cons, isFinish]
    · intro _
      rw [audioSent_append, early (Or.inl hpc)]
      simp [audioSent]
    · intro hh; rw [hso] at hh; cases hh
    · rw [wireTaskIdsOk_append, wire]
      simp [wireTaskIdsOk, wireIdOk]
    · intro hcc
      rcases c0m hcc with hmdn | hcr
      · rw [hmd _ hpc (by simp)] at hmdn; cases hmdn
      · exact Or.inr hcr
    · intro hcc
      rcases c1m hcc with hmdn | hcr
      · rw [hmd _ hpc (by simp)] at hmdn; cases hmdn
      · exact Or.inr hcr
  | waitStarted =>
    have hso : s.sOutcome = none := by
      rcases hs : s.sOutcome with _ | v
      · rfl
      · have := so.mp (by simp [hs]); rw [hpc] at this; cases this
    simp only [senderStep, hpc]
    split
    · refine ⟨sba, smem, ?_, rle, ?_, fc, ?_, ro, naf, ?_, tno, wire, tz, t1, wn, eo,
        c0w, c1w, c0c, c1c, ?_, ?_, ev⟩
      · next hst => intro _; exact hst
      · intro hh; simp at hh
      · simp [hso]
      · intro hh; rcases hh with hh | hh <;> simp at hh
      · intro hcc
        rcases c0m hcc with hmdn | hcr
        · rw [hmd _ hpc (by simp)] at hmdn; cases hmdn
        · exact Or.inr hcr
      · intro hcc
        rcases c1m hcc with hmdn | hcr
        · rw [hmd _ hpc (by simp)] at hmdn; cases hmdn
        · exact Or.inr hcr
    · exact ⟨sba, smem, ls, rle, rz, fc, so, ro, naf, early, tno, wire, tz, t1, wn, eo,
        c0w, c1w, c0c, c1c, c0m, c1m, ev⟩
  | sendLoop =>
    have hstarted : s.started = true := ls hpc
    have hso : s.sOutcome = none := by
      rcases hs : s.sOutcome with _ | v
      · rfl
      · have := so.mp (by simp [hs]); rw [hpc] at this; cases this
    have hfc : finishCount s.trace = 0 := by simpa [hso] using fc
    have stayInv : ∀ (its : List (Option Frame)) (q : SPC), q = .sendLoop ∨ q = .finishBlock →
        SessionInv cfg { s with items := its, pcS := q } := by
      intro its q hq
      refine ⟨sba, smem, ?_, rle, ?_, fc, ?_, ro, naf, ?_, tno, wire, tz, t1, wn, eo,
        c0w, c1w, c0c, c1c, ?_, ?_, ev⟩
      · intro _; exact hstarted
      · intro hh
        rcases hq with hq | hq <;> rw [hq] at hh <;> cases hh
      · show s.sOutcome.isSome = true ↔ q = SPC.sdone
        rcases hq with hq | hq <;> simp [hso, hq]
      · intro hh
        rcases hh with hh | hh <;> rcases hq with hq | hq <;> rw [hq] at hh <;> cases hh
      · intro hcc
        rcases c0m hcc with hmdn | hcr
        · rw [hmd _ hpc (by simp)] at hmdn; cases hmdn
        · exact Or.inr hcr
      · intro hcc
        rcases c1m hcc with hmdn | hcr
        · rw [hmd _ hpc (by simp)] at hmdn; cases hmdn
        · exact Or.inr hcr
    simp only [senderStep, hpc]
    split
    next hit =>
      split
      · exact stayInv s.items .finishBlock (Or.inr rfl)
      · exact ⟨sba, smem, ls, rle, rz, fc, so, ro, naf, early, tno, wire, tz, t1, wn, eo,
          c0w, c1w, c0c, c1c, c0m, c1m, ev⟩
    next item rest hit =>
      split
      · exact stayInv rest .finishBlock (Or.inr rfl)
      · split
        next _u =>
          exact stayInv rest .finishBlock (Or.inr rfl)
        next _u fr =>
          split
          · refine ⟨?_, ?_, ?_, ?_, ?_, ?_, ?_, ro, ?_, ?_, ?_, ?_, tz, t1, wn, eo,
              c0w, c1w, c0c, c1c, ?_, ?_, ev⟩
            · exact startedBeforeAudio_append_of_mem _ sba (smem hstarted)
            · intro hst
              exact List.mem_append_left _ (smem hst)
            · intro _; exact hstarted
            · rw [runCount_append]
              simpa [runCount, List.countP_cons, isRun] using rle
            · intro hh; simp at hh
            · rw [finishCount_append, hfc]
              simp [finishCount, List.countP_cons, isFinish, hso]
            · simp [hso]
            · refine noAudioAfterFinish_of_no_finish ?_
              rw [finishCount_append, hfc]
              simp [finishCount, List.countP_cons, isFinish]
            · intro hh; rcases hh with hh | hh <;> simp at hh
            · intro hh; rw [hso] at hh; cases hh
            · rw [wireTaskIdsOk_append, wire]
              simp [wireTaskIdsOk, wireIdOk]
            · intro hcc
              rcases c0m hcc with hmdn | hcr
              · rw [hmd _ hpc (by simp)] at hmdn; cases hmdn
              · exact Or.inr hcr
            · intro hcc
              rcases c1m hcc with hmdn | hcr
              · rw [hmd _ hpc (by simp)] at hmdn; cases hmdn
              · exact Or.inr hcr
          · exact stayInv rest .finishBlock (Or.inr rfl)
  | finishBlock =>
    have hso : s.sOutcome = none := by
      rcases hs : s.sOutcome with _ | v
      · rfl
      · have := so.mp (by simp [hs]); rw [hpc] at this; cases this
    have hfc : finishCount s.trace = 0 := by simpa [hso] using fc
    simp only [senderStep, hpc]
    split
    · refine ⟨?_, ?_, ?_, ?_, ?_, ?_, ?_, ro, ?_, ?_, ?_, ?_, tz, t1, wn, eo,
        c0w, c1w, c0c, c1c, ?_, ?_, ev⟩
      · exact startedBeforeAudio_append_of_not_audio sba rfl
      · intro hst
        exact List.mem_append_left _ (smem hst)
      · intro hh; simp at hh
      · rw [runCount_append]
        simpa [runCount, List.countP_cons, isRun] using rle
      · intro hh; simp at hh
      · rw [finishCount_append, hfc]
        simp [finishCount, List.countP_cons, isFinish]
      · simp
      · exact noAudioAfterFinish_append_finish _ hfc
      · intro hh; rcases hh with hh | hh <;> simp at hh
      · intro hh; simp at hh
      · rw [wireTaskIdsOk_append, wire]
        simp [wireTaskIdsOk, wireIdOk]
      · intro hcc
        rcases c0m hcc with hmdn | hcr
        · rw [hmd _ hpc (by simp)] at hmdn; cases hmdn
        · exact Or.inr hcr
      · intro hcc
        rcases c1m hcc with hmdn | hcr
        · rw [hmd _ hpc (by simp)] at hmdn; cases hmdn
        · exact Or.inr hcr
    · refine ⟨sba, smem, ?_, rle, ?_, ?_, ?_, ro, naf, ?_, ?_, wire, tz, t1, wn, eo,
        c0w, c1w, c0c, c1c, ?_, ?_, ev⟩
      · intro hh; simp at hh
      · intro hh; simp at hh
      · simpa [hso] using fc
      · simp
      · intro hh; rcases hh with hh | hh <;> simp at hh
      · intro hh; simp at hh
      · intro hcc
        rcases c0m hcc with hmdn | hcr
        · rw [hmd _ hpc (by simp)] at hmdn; cases hmdn
        · exact Or.inr hcr
      · intro hcc
        rcases c1m hcc with hmdn | hcr
        · rw [hmd _ hpc (by simp)] at hmdn; cases hmdn
        · exact Or.inr hcr
  | sdone =>
    simp only [senderStep, hpc]
    exact ⟨sba, smem, ls, rle, rz, fc, so, ro, naf, early, tno, wire, tz, t1, wn, eo,
      c0w, c1w, c0c, c1c, c0m, c1m, ev⟩

theorem senderTimeoutStep_inv {cfg : Cfg} {s : Sys} (h : SessionInv cfg s) :
    SessionInv cfg (senderTimeoutStep s) := by
  obtain ⟨sba, smem, ls, rle, rz, fc, so, ro, naf, early, tno, wire, tz, t1, wn, eo,
    c0w, c1w, c0c, c1c, c0m, c1m, ev⟩ := h
  unfold senderTimeoutStep
  split
  next hcond =>
    simp only [Bool.and_eq_true, beq_iff_eq, Bool.not_eq_eq_eq_not, Bool.not_true] at hcond
    obtain ⟨hpc, hst⟩ := hcond
    have hso : s.sOutcome = none := by
      rcases hs : s.sOutcome with _ | v
      · rfl
      · have := so.mp (by simp [hs]); rw [hpc] at this; cases this
    refine ⟨sba, smem, ?_, rle, ?_, ?_, ?_, ro, naf, ?_, ?_, wire, tz, t1, wn, eo,
      c0w, c1w, c0c, c1c, ?_, ?_, ev⟩
    · intro hh; simp at hh
    · intro hh; simp at hh
    · simpa [hso] using fc
    · simp
    · intro hh; rcases hh with hh | hh <;> simp at hh
    · intro _
      exact early (Or.inr hpc)
    · intro hcc
      rcases c0m hcc with hmdn | hcr
      · simp [mainDone, hpc] at hmdn
      · exact Or.inr hcr
    · intro hcc
      rcases c1m hcc with hmdn | hcr
      · simp [mainDone, hpc] at hmdn
      · exact Or.inr hcr
  · exact ⟨sba, smem, ls, rle, rz, fc, so, ro, naf, early, tno, wire, tz, t1, wn, eo,
      c0w, c1w, c0c, c1c, c0m, c1m, ev⟩

theorem senderCancelStep_inv {cfg : Cfg} {s : Sys} (h : SessionInv cfg s) :
    SessionInv cfg (senderCancelStep s) := by
  obtain ⟨sba, smem, ls, rle, rz, fc, so, ro, naf, early, tno, wire, tz, t1, wn, eo,
    c0w, c1w, c0c, c1c, c0m, c1m, ev⟩ := h
  unfold senderCancelStep
  split
  next hcond =>
    simp only [Bool.and_eq_true, Bool.not_eq_eq_eq_not, Bool.not_true, beq_eq_false_iff_ne,
      ne_eq] at hcond
    obtain ⟨hcr, hpc⟩ := hcond
    have hso : s.sOutcome = none := by
      rcases hs : s.sOutcome with _ | v
      · rfl
      · exact absurd (so.mp (by simp [hs])) hpc
    refine ⟨sba, smem, ?_, rle, ?_, ?_, ?_, ro, naf, ?_, ?_, wire, tz, t1, wn, eo,
      c0w, c1w, c0c, c1c, ?_, ?_, ev⟩
    · intro hh; simp at hh
    · intro hh; simp at hh
    · simpa [hso] using fc
    · simp
    · intro hh; rcases hh with hh | hh <;> simp at hh
    · intro hh; simp at hh
    · intro _
      exact Or.inr hcr
    · intro _
      exact Or.inr hcr
  · exact ⟨sba, smem, ls, rle, rz, fc, so, ro, naf, early, tno, wire, tz, t1, wn, eo,
      c0w, c1w, c0c, c1c, c0m, c1m, ev⟩

theorem receiverCancelStep_inv {cfg : Cfg} {s : Sys} (h : SessionInv cfg s) :
    SessionInv cfg (receiverCancelStep s) := by
  obtain ⟨sba, smem, ls, rle, rz, fc, so, ro, naf, early, tno, wire, tz, t1, wn, eo,
    c0w, c1w, c0c, c1c, c0m, c1m, ev⟩ := h
  unfold receiverCancelStep
  split
  next hcond =>
    simp only [Bool.and_eq_true, Bool.not_eq_eq_eq_not, Bool.not_true, beq_eq_false_iff_ne,
      ne_eq] at hcond
    obtain ⟨hcr, hpc⟩ := hcond
    have hro : s.rOutcome = none := by
      rcases hs : s.rOutcome with _ | v
      · rfl
      · exact absurd (ro.mp (by simp [hs])) hpc
    refine ⟨sba, smem, ls, rle, rz, fc, so, ?_, naf, early, tno, wire, tz, ?_, wn, ?_,
      c0w, c1w, c0c, c1c, ?_, ?_, ev⟩
    · simp
    · intro hws
      rcases t1 hws with h1 | ⟨h2, _⟩
      · exact Or.inl h1
      · rw [hro] at h2; cases h2
    · intro hh; simp at hh
    · intro _
      exact Or.inr hcr
    · intro _
      exact Or.inr hcr
  · exact ⟨sba, smem, ls, rle, rz, fc, so, ro, naf, early, tno, wire, tz, t1, wn, eo,
      c0w, c1w, c0c, c1c, c0m, c1m, ev⟩

/-- The invariant only depends on the listed components of the state. -/
theorem sessionInv_ofEq {cfg : Cfg} {s s' : Sys} (h : SessionInv cfg s)
    (h1 : s'.pcS = s.pcS) (h2 : s'.pcR = s.pcR) (h3 : s'.pcC0 = s.pcC0)
    (h4 : s'.pcC1 = s.pcC1) (h5 : s'.pcF = s.pcF) (h6 : s'.started = s.started)
    (h7 : s'.cancelReq = s.cancelReq) (h8 : s'.wsClosed = s.wsClosed)
    (h9 : s'.wsNone = s.wsNone) (h10 : s'.trace = s.trace)
    (h11 : s'.eventChClosed = s.eventChClosed) (h12 : s'.teardown = s.teardown)
    (h13 : s'.sOutcome = s.sOutcome) (h14 : s'.rOutcome = s.rOutcome) :
    SessionInv cfg s' := by
  have hmd : mainDone s' = mainDone s := by simp [mainDone, h1, h2, h5]
  refine ⟨?_, ?_, ?_, ?_, ?_, ?_, ?_, ?_, ?_, ?_, ?_, ?_, ?_, ?_, ?_, ?_, ?_, ?_, ?_, ?_,
    ?_, ?_, ?_⟩ <;>
    simp only [h1, h2, h3, h4, h5, h6, h7, h8, h9, h10, h11, h12, h13, h14, hmd]
  exacts [h.sba, h.started_mem, h.loop_started, h.run_le, h.run_zero, h.finish_count,
    h.s_outcome, h.r_outcome, h.naf, h.early_no_audio, h.timeout_no_audio, h.wire_ids,
    h.td_zero, h.td_one, h.ws_none_closed, h.eof_ws, h.c0_ws, h.c1_ws, h.c0_cancel,
    h.c1_cancel, h.c0_main, h.c1_main, h.evch]

theorem receiverStep_inv {cfg : Cfg} {s : Sys} (h : SessionInv cfg s) :
    SessionInv cfg (receiverStep cfg s) := by
  unfold receiverStep
  split
  · exact h
  next hrb =>
    have hpcr : s.pcR = .recvLoop := by
      cases hq : s.pcR
      · rfl
      · rw [hq] at hrb; simp at hrb
    have hro : s.rOutcome = none := rOutcome_none h (by simp [hpcr])
    have hmdf : mainDone s = false := by simp [mainDone, hpcr]
    split
    next hib => exact h
    next m rest hib =>
      split
      next d heqm =>
        split
        next heqe =>
          -- task-started
          refine ⟨?_, ?_, ?_, ?_, ?_, ?_, h.s_outcome, ?_, ?_, ?_, ?_, ?_, h.td_zero,
            h.td_one, h.ws_none_closed, h.eof_ws, h.c0_ws, h.c1_ws, h.c0_cancel,
            h.c1_cancel, ?_, ?_, h.evch⟩
          · exact startedBeforeAudio_append_of_not_audio h.sba rfl
          · intro _
            simp
          · intro _; rfl
          · rw [runCount_append]
            simpa [runCount, List.countP_cons, isRun] using h.run_le
          · intro hq
            rw [runCount_append, h.run_zero hq]
            simp [runCount, List.countP_cons, isRun]
          · rw [finishCount_append]
            simpa [finishCount, List.countP_cons, isFinish] using h.finish_count
          · simpa [hpcr] using h.r_outcome
          · exact noAudioAfterFinish_append_of_not_audio h.naf rfl
          · intro hq
            rw [audioSent_append, h.early_no_audio hq]
            simp [audioSent]
          · intro hq
            rw [audioSent_append, h.timeout_no_audio hq]
            simp [audioSent]
          · rw [wireTaskIdsOk_append, h.wire_ids]
            simp [wireTaskIdsOk, wireIdOk]
          · intro hcc
            rcases h.c0_main hcc with hmdn | hcr
            · rw [hmdf] at hmdn; cases hmdn
            · exact Or.inr hcr
          · intro hcc
            rcases h.c1_main hcc with hmdn | hcr
            · rw [hmdf] at hmdn; cases hmdn
            · exact Or.inr hcr
        next heqe =>
          -- result-generated
          exact sessionInv_ofEq h rfl rfl rfl rfl rfl rfl rfl rfl rfl rfl rfl rfl rfl rfl
        next heqe =>
          -- task-finished
          refine ⟨h.sba, h.started_mem, h.loop_started, h.run_le, h.run_zero, h.finish_count,
            h.s_outcome, ?_, h.naf, h.early_no_audio, h.timeout_no_audio, h.wire_ids,
            h.td_zero, ?_, h.ws_none_closed, ?_, h.c0_ws, h.c1_ws, h.c0_cancel, h.c1_cancel,
            ?_, ?_, h.evch⟩
          · simp
          · intro hws
            rcases h.td_one hws with h1 | ⟨h2, _⟩
            · exact Or.inl h1
            · rw [hro] at h2; cases h2
          · intro hh; simp at hh
          · intro hcc
            rcases h.c0_main hcc with hmdn | hcr
            · rw [hmdf] at hmdn; cases hmdn
            · exact Or.inr hcr
          · intro hcc
            rcases h.c1_main hcc with hmdn | hcr
            · rw [hmdf] at hmdn; cases hmdn
            · exact Or.inr hcr
        next heqe =>
          -- task-failed
          refine ⟨h.sba, h.started_mem, h.loop_started, h.run_le, h.run_zero, h.finish_count,
            h.s_outcome, ?_, h.naf, h.early_no_audio, h.timeout_no_audio, h.wire_ids,
            h.td_zero, ?_, h.ws_none_closed, ?_, h.c0_ws, h.c1_ws, h.c0_cancel, h.c1_cancel,
            ?_, ?_, h.evch⟩
          · simp
          · intro hws
            rcases h.td_one hws with h1 | ⟨h2, _⟩
            · exact Or.inl h1
            · rw [hro] at h2; cases h2
          · intro hh; simp at hh
          · intro hcc
            rcases h.c0_main hcc with hmdn | hcr
            · rw [hmdf] at hmdn; cases hmdn
            · exact Or.inr hcr
          · intro hcc
            rcases h.c1_main hcc with hmdn | hcr
            · rw [hmdf] at hmdn; cases hmdn
            · exact Or.inr hcr
        next heqe =>
          -- unrecognized event: only the inbox advances
          exact sessionInv_ofEq h rfl rfl rfl rfl rfl rfl rfl rfl rfl rfl rfl rfl rfl rfl
      next heqm =>
        -- WSMsgType.ERROR
        refine ⟨h.sba, h.started_mem, h.loop_started, h.run_le, h.run_zero, h.finish_count,
          h.s_outcome, ?_, h.naf, h.early_no_audio, h.timeout_no_audio, h.wire_ids,
          h.td_zero, ?_, h.ws_none_closed, ?_, h.c0_ws, h.c1_ws, h.c0_cancel, h.c1_cancel,
          ?_, ?_, h.evch⟩
        · simp
        · intro hws
          rcases h.td_one hws with h1 | ⟨h2, _⟩
          · exact Or.inl h1
          · rw [hro] at h2; cases h2
        · intro hh; simp at hh
        · intro hcc
          rcases h.c0_main hcc with hmdn | hcr
          · rw [hmdf] at hmdn; cases hmdn
          · exact Or.inr hcr
        · intro hcc
          rcases h.c1_main hcc with hmdn | hcr
          · rw [hmdf] at hmdn; cases hmdn
          · exact Or.inr hcr
      next heqm =>
        -- WSMsgType.CLOSED: the connection is gone
        refine ⟨h.sba, h.started_mem, h.loop_started, h.run_le, h.run_zero, h.finish_count,
          h.s_outcome, ?_, h.naf, h.early_no_audio, h.timeout_no_audio, h.wire_ids,
          ?_, ?_, ?_, ?_, ?_, ?_, h.c0_cancel, h.c1_cancel, ?_, ?_, h.evch⟩
        · simp
        · intro hh; simp at hh
        · intro _
          rcases hb : s.wsClosed with _ | _
          · exact Or.inr ⟨rfl, h.td_zero hb⟩
          · rcases h.td_one hb with h1 | ⟨h2, _⟩
            · exact Or.inl h1
            · rw [hro] at h2; cases h2
        · intro _; rfl
        · intro _; rfl
        · intro _; rfl
        · intro _; rfl
        · intro hcc
          rcases h.c0_main hcc with hmdn | hcr
          · rw [hmdf] at hmdn; cases hmdn
          · exact Or.inr hcr
        · intro hcc
          rcases h.c1_main hcc with hmdn | hcr
          · rw [hmdf] at hmdn; cases hmdn
          · exact Or.inr hcr

theorem finallyStep_inv {cfg : Cfg} {s : Sys} (h : SessionInv cfg s) :
    SessionInv cfg (finallyStep s) := by
  unfold finallyStep
  split
  next hcond =>
    simp only [Bool.and_eq_true, beq_iff_eq] at hcond
    obtain ⟨⟨hS, hR⟩, hF⟩ := hcond
    split
    next hws =>
      have hws' : s.wsClosed = false := by
        revert hws; cases s.wsClosed <;> simp
      have htd0 : s.teardown = 0 := h.td_zero hws'
      refine ⟨h.sba, h.started_mem, h.loop_started, h.run_le, h.run_zero, h.finish_count,
        h.s_outcome, h.r_outcome, h.naf, h.early_no_audio, h.timeout_no_audio, h.wire_ids,
        ?_, ?_, ?_, ?_, ?_, ?_, h.c0_cancel, h.c1_cancel, ?_, ?_, h.evch⟩
      · intro hh; simp at hh
      · intro _
        exact Or.inl (by simp [htd0])
      · intro _; rfl
      · intro _; rfl
      · intro _; rfl
      · intro _; rfl
      · intro _
        exact Or.inl (by simp [mainDone, hS, hR])
      · intro _
        exact Or.inl (by simp [mainDone, hS, hR])
    next hws =>
      have hws' : s.wsClosed = true := by
        revert hws; cases s.wsClosed <;> simp
      refine ⟨h.sba, h.started_mem, h.loop_started, h.run_le, h.run_zero, h.finish_count,
        h.s_outcome, h.r_outcome, h.naf, h.early_no_audio, h.timeout_no_audio, h.wire_ids,
        h.td_zero, h.td_one, ?_, h.eof_ws, h.c0_ws, h.c1_ws, h.c0_cancel, h.c1_cancel,
        ?_, ?_, h.evch⟩
      · intro _; exact hws'
      · intro _
        exact Or.inl (by simp [mainDone, hS, hR])
      · intro _
        exact Or.inl (by simp [mainDone, hS, hR])
  · exact h

theorem closer0Step_inv {cfg : Cfg} {s : Sys} (h : SessionInv cfg s) :
    SessionInv cfg (step cfg s .c0Step) := by
  show SessionInv cfg (let p := closerStep s s.pcC0; { p.1 with pcC0 := p.2 })
  cases hpc : s.pcC0 with
  | setClosed =>
    simp only [closerStep, hpc]
    refine ⟨h.sba, h.started_mem, h.loop_started, h.run_le, h.run_zero, h.finish_count,
      h.s_outcome, h.r_outcome, h.naf, h.early_no_audio, h.timeout_no_audio, h.wire_ids,
      h.td_zero, h.td_one, h.ws_none_closed, h.eof_ws, ?_, h.c1_ws, ?_, h.c1_cancel,
      ?_, ?_, ?_⟩
    · intro hh; rcases hh with hh | hh <;> simp at hh
    · intro hh; simp at hh
    · intro hh; rcases hh with hh | hh | hh <;> simp at hh
    · intro hcc
      rcases h.c1_main hcc with hmdn | hcr
      · exact Or.inl hmdn
      · exact Or.inr hcr
    · intro hev
      rcases h.evch hev with h1 | h2
      · rw [hpc] at h1; cases h1
      · exact Or.inr h2
  | sendNone =>
    simp only [closerStep, hpc]
    refine ⟨h.sba, h.started_mem, h.loop_started, h.run_le, h.run_zero, h.finish_count,
      h.s_outcome, h.r_outcome, h.naf, h.early_no_audio, h.timeout_no_audio, h.wire_ids,
      h.td_zero, h.td_one, h.ws_none_closed, h.eof_ws, ?_, h.c1_ws, ?_, h.c1_cancel,
      ?_, ?_, ?_⟩
    · intro hh; rcases hh with hh | hh <;> simp at hh
    · intro hh; simp at hh
    · intro hh; rcases hh with hh | hh | hh <;> simp at hh
    · intro hcc
      rcases h.c1_main hcc with hmdn | hcr
      · exact Or.inl hmdn
      · exact Or.inr hcr
    · intro hev
      rcases h.evch hev with h1 | h2
      · rw [hpc] at h1; cases h1
      · exact Or.inr h2
  | cancelMain =>
    simp only [closerStep, hpc]
    split
    next hmdt =>
      refine ⟨h.sba, h.started_mem, h.loop_started, h.run_le, h.run_zero, h.finish_count,
        h.s_outcome, h.r_outcome, h.naf, h.early_no_audio, h.timeout_no_audio, h.wire_ids,
        h.td_zero, h.td_one, h.ws_none_closed, h.eof_ws, ?_, h.c1_ws, ?_, h.c1_cancel,
        ?_, ?_, ?_⟩
      · intro hh; rcases hh with hh | hh <;> simp at hh
      · intro hh; simp at hh
      · intro _
        exact Or.inl hmdt
      · intro hcc
        rcases h.c1_main hcc with hmdn | hcr
        · exact Or.inl hmdn
        · exact Or.inr hcr
      · intro hev
        rcases h.evch hev with h1 | h2
        · rw [hpc] at h1; cases h1
        · exact Or.inr h2
    next hmdt =>
      refine ⟨h.sba, h.started_mem, h.loop_started, h.run_le, h.run_zero, h.finish_count,
        h.s_outcome, h.r_outcome, h.naf, h.early_no_audio, h.timeout_no_audio, h.wire_ids,
        h.td_zero, h.td_one, h.ws_none_closed, h.eof_ws, ?_, h.c1_ws, ?_, ?_,
        ?_, ?_, ?_⟩
      · intro hh; rcases hh with hh | hh <;> simp at hh
      · intro _; rfl
      · intro _; rfl
      · intro hh; rcases hh with hh | hh | hh <;> simp at hh
      · intro _
        exact Or.inr rfl
      · intro hev
        rcases h.evch hev with h1 | h2
        · rw [hpc] at h1; cases h1
        · exact Or.inr h2
  | awaitMain =>
    simp only [closerStep, hpc]
    split
    next hmdt =>
      refine ⟨h.sba, h.started_mem, h.loop_started, h.run_le, h.run_zero, h.finish_count,
        h.s_outcome, h.r_outcome, h.naf, h.early_no_audio, h.timeout_no_audio, h.wire_ids,
        h.td_zero, h.td_one, h.ws_none_closed, h.eof_ws, ?_, h.c1_ws, ?_, h.c1_cancel,
        ?_, ?_, ?_⟩
      · intro hh; rcases hh with hh | hh <;> simp at hh
      · intro hh; simp at hh
      · intro _
        exact Or.inl hmdt
      · intro hcc
        rcases h.c1_main hcc with hmdn | hcr
        · exact Or.inl hmdn
        · exact Or.inr hcr
      · intro hev
        rcases h.evch hev with h1 | h2
        · rw [hpc] at h1; cases h1
        · exact Or.inr h2
    next hmdt =>
      refine ⟨h.sba, h.started_mem, h.loop_started, h.run_le, h.run_zero, h.finish_count,
        h.s_outcome, h.r_outcome, h.naf, h.early_no_audio, h.timeout_no_audio, h.wire_ids,
        h.td_zero, h.td_one, h.ws_none_closed, h.eof_ws, ?_, h.c1_ws, ?_, h.c1_cancel,
        ?_, ?_, ?_⟩
      · intro hh; rcases hh with hh | hh <;> simp at hh
      · intro _
        exact h.c0_cancel hpc
      · intro hh; rcases hh with hh | hh | hh <;> simp at hh
      · intro hcc
        rcases h.c1_main hcc with hmdn | hcr
        · exact Or.inl hmdn
        · exact Or.inr hcr
      · intro hev
        rcases h.evch hev with h1 | h2
        · rw [hpc] at h1; cases h1
        · exact Or.inr h2
  | closeWs =>
    simp only [closerStep, hpc]
    split
    next hcnd =>
      have hwn : s.wsNone = false := by
        revert hcnd; cases s.wsNone <;> cases s.wsClosed <;> simp
      have hws : s.wsClosed = false := by
        revert hcnd; cases s.wsNone <;> cases s.wsClosed <;> simp
      have htd0 : s.teardown = 0 := h.td_zero hws
      refine ⟨h.sba, h.started_mem, h.loop_started, h.run_le, h.run_zero, h.finish_count,
        h.s_outcome, h.r_outcome, h.naf, h.early_no_audio, h.timeout_no_audio, h.wire_ids,
        ?_, ?_, ?_, ?_, ?_, ?_, ?_, h.c1_cancel, ?_, ?_, ?_⟩
      · intro hh; simp at hh
      · intro _
        exact Or.inl (by simp [htd0])
      · intro _; rfl
      · intro _; rfl
      · intro _; rfl
      · intro _; rfl
      · intro hh; simp at hh
      · intro _
        exact h.c0_main (Or.inl hpc)
      · intro hcc
        rcases h.c1_main hcc with hmdn | hcr
        · exact Or.inl hmdn
        · exact Or.inr hcr
      · intro hev
        rcases h.evch hev with h1 | h2
        · rw [hpc] at h1; cases h1
        · exact Or.inr h2
    next hcnd =>
      have hws : s.wsClosed = true := by
        revert hcnd
        cases hwn : s.wsNone
        · cases s.wsClosed <;> simp
        · intro _
          exact h.ws_none_closed hwn
      refine ⟨h.sba, h.started_mem, h.loop_started, h.run_le, h.run_zero, h.finish_count,
        h.s_outcome, h.r_outcome, h.naf, h.early_no_audio, h.timeout_no_audio, h.wire_ids,
        h.td_zero, h.td_one, h.ws_none_closed, h.eof_ws, ?_, h.c1_ws, ?_, h.c1_cancel,
        ?_, ?_, ?_⟩
      · intro _
        exact hws
      · intro hh; simp at hh
      · intro _
        exact h.c0_main (Or.inl hpc)
      · intro hcc
        rcases h.c1_main hcc with hmdn | hcr
        · exact Or.inl hmdn
        · exact Or.inr hcr
      · intro hev
        rcases h.evch hev with h1 | h2
        · rw [hpc] at h1; cases h1
        · exact Or.inr h2
  | closeEventCh =>
    simp only [closerStep, hpc]
    refine ⟨h.sba, h.started_mem, h.loop_started, h.run_le, h.run_zero, h.finish_count,
      h.s_outcome, h.r_outcome, h.naf, h.early_no_audio, h.timeout_no_audio, h.wire_ids,
      h.td_zero, h.td_one, h.ws_none_closed, h.eof_ws, ?_, h.c1_ws, ?_, h.c1_cancel,
      ?_, ?_, ?_⟩
    · intro _
      exact h.c0_ws (Or.inl hpc)
    · intro hh; simp at hh
    · intro _
      exact h.c0_main (Or.inr (Or.inl hpc))
    · intro hcc
      rcases h.c1_main hcc with hmdn | hcr
      · exact Or.inl hmdn
      · exact Or.inr hcr
    · intro _
      exact Or.inl rfl
  | cdone =>
    simp only [closerStep, hpc]
    refine ⟨h.sba, h.started_mem, h.loop_started, h.run_le, h.run_zero, h.finish_count,
      h.s_outcome, h.r_outcome, h.naf, h.early_no_audio, h.timeout_no_audio, h.wire_ids,
      h.td_zero, h.td_one, h.ws_none_closed, h.eof_ws, ?_, h.c1_ws, ?_, h.c1_cancel,
      ?_, ?_, ?_⟩
    · intro _
      exact h.c0_ws (Or.inr hpc)
    · intro hh; simp at hh
    · intro _
      exact h.c0_main (Or.inr (Or.inr hpc))
    · intro hcc
      rcases h.c1_main hcc with hmdn | hcr
      · exact Or.inl hmdn
      · exact Or.inr hcr
    · intro _
      exact Or.inl rfl

theorem closer1Step_inv {cfg : Cfg} {s : Sys} (h : SessionInv cfg s) :
    SessionInv cfg (step cfg s .c1Step) := by
  show SessionInv cfg (let p := closerStep s s.pcC1; { p.1 with pcC1 := p.2 })
  cases hpc : s.pcC1 with
  | setClosed =>
    simp only [closerStep, hpc]
    refine ⟨h.sba, h.started_mem, h.loop_started, h.run_le, h.run_zero, h.finish_count,
      h.s_outcome, h.r_outcome, h.naf, h.early_no_audio, h.timeout_no_audio, h.wire_ids,
      h.td_zero, h.td_one, h.ws_none_closed, h.eof_ws, h.c0_ws, ?_, h.c0_cancel, ?_,
      ?_, ?_, ?_⟩
    · intro hh; rcases hh with hh | hh <;> simp at hh
    · intro hh; simp at hh
    · intro hcc
      rcases h.c0_main hcc with hmdn | hcr
      · exact Or.inl hmdn
      · exact Or.inr hcr
    · intro hh; rcases hh with hh | hh | hh <;> simp at hh
    · intro hev
      rcases h.evch hev with h1 | h2
      · exact Or.inl h1
      · rw [hpc] at h2; cases h2
  | sendNone =>
    simp only [closerStep, hpc]
    refine ⟨h.sba, h.started_mem, h.loop_started, h.run_le, h.run_zero, h.finish_count,
      h.s_outcome, h.r_outcome, h.naf, h.early_no_audio, h.timeout_no_audio, h.wire_ids,
      h.td_zero, h.td_one, h.ws_none_closed, h.eof_ws, h.c0_ws, ?_, h.c0_cancel, ?_,
      ?_, ?_, ?_⟩
    · intro hh; rcases hh with hh | hh <;> simp at hh
    · intro hh; simp at hh
    · intro hcc
      rcases h.c0_main hcc with hmdn | hcr
      · exact Or.inl hmdn
      · exact Or.inr hcr
    · intro hh; rcases hh with hh | hh | hh <;> simp at hh
    · intro hev
      rcases h.evch hev with h1 | h2
      · exact Or.inl h1
      · rw [hpc] at h2; cases h2
  | cancelMain =>
    simp only [closerStep, hpc]
    split
    next hmdt =>
      refine ⟨h.sba, h.started_mem, h.loop_started, h.run_le, h.run_zero, h.finish_count,
        h.s_outcome, h.r_outcome, h.naf, h.early_no_audio, h.timeout_no_audio, h.wire_ids,
        h.td_zero, h.td_one, h.ws_none_closed, h.eof_ws, h.c0_ws, ?_, h.c0_cancel, ?_,
        ?_, ?_, ?_⟩
      · intro hh; rcases hh with hh | hh <;> simp at hh
      · intro hh; simp at hh
      · intro hcc
        rcases h.c0_main hcc with hmdn | hcr
        · exact Or.inl hmdn
        · exact Or.inr hcr
      · intro _
        exact Or.inl hmdt
      · intro hev
        rcases h.evch hev with h1 | h2
        · exact Or.inl h1
        · rw [hpc] at h2; cases h2
    next hmdt =>
      refine ⟨h.sba, h.started_mem, h.loop_started, h.run_le, h.run_zero, h.finish_count,
        h.s_outcome, h.r_outcome, h.naf, h.early_no_audio, h.timeout_no_audio, h.wire_ids,
        h.td_zero, h.td_one, h.ws_none_closed, h.eof_ws, h.c0_ws, ?_, ?_, ?_,
        ?_, ?_, ?_⟩
      · intro hh; rcases hh with hh | hh <;> simp at hh
      · intro _; rfl
      · intro _; rfl
      · intro _
        exact Or.inr rfl
      · intro hh; rcases hh with hh | hh | hh <;> simp at hh
      · intro hev
        rcases h.evch hev with h1 | h2
        · exact Or.inl h1
        · rw [hpc] at h2; cases h2
  | awaitMain =>
    simp only [closerStep, hpc]
    split
    next hmdt =>
      refine ⟨h.sba, h.started_mem, h.loop_started, h.run_le, h.run_zero, h.finish_count,
        h.s_outcome, h.r_outcome, h.naf, h.early_no_audio, h.timeout_no_audio, h.wire_ids,
        h.td_zero, h.td_one, h.ws_none_closed, h.eof_ws, h.c0_ws, ?_, h.c0_cancel, ?_,
        ?_, ?_, ?_⟩
      · intro hh; rcases hh with hh | hh <;> simp at hh
      · intro hh; simp at hh
      · intro hcc
        rcases h.c0_main hcc with hmdn | hcr
        · exact Or.inl hmdn
        · exact Or.inr hcr
      · intro _
        exact Or.inl hmdt
      · intro hev
        rcases h.evch hev with h1 | h2
        · exact Or.inl h1
        · rw [hpc] at h2; cases h2
    next hmdt =>
      refine ⟨h.sba, h.started_mem, h.loop_started, h.run_le, h.run_zero, h.finish_count,
        h.s_outcome, h.r_outcome, h.naf, h.early_no_audio, h.timeout_no_audio, h.wire_ids,
        h.td_zero, h.td_one, h.ws_none_closed, h.eof_ws, h.c0_ws, ?_, h.c0_cancel, ?_,
        ?_, ?_, ?_⟩
      · intro hh; rcases hh with hh | hh <;> simp at hh
      · intro _
        exact h.c1_cancel hpc
      · intro hcc
        rcases h.c0_main hcc with hmdn | hcr
        · exact Or.inl hmdn
        · exact Or.inr hcr
      · intro hh; rcases hh with hh | hh | hh <;> simp at hh
      · intro hev
        rcases h.evch hev with h1 | h2
        · exact Or.inl h1
        · rw [hpc] at h2; cases h2
  | closeWs =>
    simp only [closerStep, hpc]
    split
    next hcnd =>
      have hws : s.wsClosed = false := by
        revert hcnd; cases s.wsNone <;> cases s.wsClosed <;> simp
      have htd0 : s.teardown = 0 := h.td_zero hws
      refine ⟨h.sba, h.started_mem, h.loop_started, h.run_le, h.run_zero, h.finish_count,
        h.s_outcome, h.r_outcome, h.naf, h.early_no_audio, h.timeout_no_audio, h.wire_ids,
        ?_, ?_, ?_, ?_, ?_, ?_, h.c0_cancel, ?_, ?_, ?_, ?_⟩
      · intro hh; simp at hh
      · intro _
        exact Or.inl (by simp [htd0])
      · intro _; rfl
      · intro _; rfl
      · intro _; rfl
      · intro _; rfl
      · intro hh; simp at hh
      · intro hcc
        rcases h.c0_main hcc with hmdn | hcr
        · exact Or.inl hmdn
        · exact Or.inr hcr
      · intro _
        exact h.c1_main (Or.inl hpc)
      · intro hev
        rcases h.evch hev with h1 | h2
        · exact Or.inl h1
        · rw [hpc] at h2; cases h2
    next hcnd =>
      have hws : s.wsClosed = true := by
        revert hcnd
        cases hwn : s.wsNone
        · cases s.wsClosed <;> simp
        · intro _
          exact h.ws_none_closed hwn
      refine ⟨h.sba, h.started_mem, h.loop_started, h.run_le, h.run_zero, h.finish_count,
        h.s_outcome, h.r_outcome, h.naf, h.early_no_audio, h.timeout_no_audio, h.wire_ids,
        h.td_zero, h.td_one, h.ws_none_closed, h.eof_ws, h.c0_ws, ?_, h.c0_cancel, ?_,
        ?_, ?_, ?_⟩
      · intro _
        exact hws
      · intro hh; simp at hh
      · intro hcc
        rcases h.c0_main hcc with hmdn | hcr
        · exact Or.inl hmdn
        · exact Or.inr hcr
      · intro _
        exact h.c1_main (Or.inl hpc)
      · intro hev
        rcases h.evch hev with h1 | h2
        · exact Or.inl h1
        · rw [hpc] at h2; cases h2
  | closeEventCh =>
    simp only [closerStep, hpc]
    refine ⟨h.sba, h.started_mem, h.loop_started, h.run_le, h.run_zero, h.finish_count,
      h.s_outcome, h.r_outcome, h.naf, h.early_no_audio, h.timeout_no_audio, h.wire_ids,
      h.td_zero, h.td_one, h.ws_none_closed, h.eof_ws, h.c0_ws, ?_, h.c0_cancel, ?_,
      ?_, ?_, ?_⟩
    · intro _
      exact h.c1_ws (Or.inl hpc)
    · intro hh; simp at hh
    · intro hcc
      rcases h.c0_main hcc with hmdn | hcr
      · exact Or.inl hmdn
      · exact Or.inr hcr
    · intro _
      exact h.c1_main (Or.inr (Or.inl hpc))
    · intro _
      exact Or.inr rfl
  | cdone =>
    simp only [closerStep, hpc]
    refine ⟨h.sba, h.started_mem, h.loop_started, h.run_le, h.run_zero, h.finish_count,
      h.s_outcome, h.r_outcome, h.naf, h.early_no_audio, h.timeout_no_audio, h.wire_ids,
      h.td_zero, h.td_one, h.ws_none_closed, h.eof_ws, h.c0_ws, ?_, h.c0_cancel, ?_,
      ?_, ?_, ?_⟩
    · intro _
      exact h.c1_ws (Or.inr hpc)
    · intro hh; simp at hh
    · intro hcc
      rcases h.c0_main hcc with hmdn | hcr
      · exact Or.inl hmdn
      · exact Or.inr hcr
    · intro _
      exact h.c1_main (Or.inr (Or.inr hpc))
    · intro _
      exact Or.inr rfl

theorem step_inv {cfg : Cfg} {s : Sys} (h : SessionInv cfg s) (c : Choice) :
    SessionInv cfg (step cfg s c) := by
  cases c with
  | sStep => exact senderStep_inv h
  | sTimeout => exact senderTimeoutStep_inv h
  | sCancel => exact senderCancelStep_inv h
  | rStep => exact receiverStep_inv h
  | rCancel => exact receiverCancelStep_inv h
  | fStep => exact finallyStep_inv h
  | c0Step => exact closer0Step_inv h
  | c1Step => exact closer1Step_inv h

theorem foldl_inv (cfg : Cfg) (sch : List Choice) :
    ∀ s : Sys, SessionInv cfg s → SessionInv cfg (sch.foldl (step cfg) s) := by
  induction sch with
  | nil => intro s h; exact h
  | cons c t ih =>
    intro s h
    exact ih _ (step_inv h c)

/-- The invariant holds in every state reachable under any schedule. -/
theorem runSched_inv (cfg : Cfg) (sch : List Choice) : SessionInv cfg (runSched cfg sch) :=
  foldl_inv cfg sch _ (init_inv cfg)

theorem calmInv_ofEq {cfg : Cfg} {s s' : Sys} (hc : CalmInv cfg s)
    (h1 : s'.pcS = s.pcS) (h2 : s'.items = s.items) (h3 : s'.closedFlag = s.closedFlag)
    (h4 : s'.cancelReq = s.cancelReq) (h5 : s'.sOutcome = s.sOutcome)
    (h6 : audioSent s'.trace = audioSent s.trace)
    (h7 : s'.wsClosed = false → s.wsClosed = false) :
    CalmInv cfg s' := by
  refine ⟨?_, ?_, ?_, ?_, ?_, ?_⟩
  · rw [h3]; exact hc.no_close
  · rw [h4]; exact hc.no_cancel
  · intro hq; rw [h1] at hq; rw [h2, h6]; exact hc.early_items hq
  · intro hq hws; rw [h1] at hq; rw [h6, h2]; exact hc.loop_rel hq (h7 hws)
  · intro hq hws; rw [h1] at hq; rw [h6]; exact hc.finish_rel hq (h7 hws)
  · intro hq; rw [h5] at hq; rw [h6]; exact hc.sent_rel hq

theorem receiverStep_keeps (cfg : Cfg) (s : Sys) :
    (receiverStep cfg s).pcS = s.pcS ∧ (receiverStep cfg s).items = s.items ∧
    (receiverStep cfg s).closedFlag = s.closedFlag ∧
    (receiverStep cfg s).cancelReq = s.cancelReq ∧
    (receiverStep cfg s).sOutcome = s.sOutcome ∧
    audioSent (receiverStep cfg s).trace = audioSent s.trace ∧
    ((receiverStep cfg s).wsClosed = false → s.wsClosed = false) := by
  unfold receiverStep
  split
  · simp
  · split
    · simp
    · split
      · split <;> simp [audioSent_append, audioSent]
      · simp
      · simp

theorem finallyStep_keeps (s : Sys) :
    (finallyStep s).pcS = s.pcS ∧ (finallyStep s).items = s.items ∧
    (finallyStep s).closedFlag = s.closedFlag ∧
    (finallyStep s).cancelReq = s.cancelReq ∧
    (finallyStep s).sOutcome = s.sOutcome ∧
    audioSent (finallyStep s).trace = audioSent s.trace ∧
    ((finallyStep s).wsClosed = false → s.wsClosed = false) := by
  unfold finallyStep
  split
  · split <;> simp
  · simp

theorem calmStep_inv {cfg : Cfg} {s : Sys} (h : SessionInv cfg s) (hc : CalmInv cfg s)
    (c : Choice) (hcalm : calm c = true) : CalmInv cfg (step cfg s c) := by
  cases c with
  | sCancel => simp [calm] at hcalm
  | rCancel => simp [calm] at hcalm
  | c0Step => simp [calm] at hcalm
  | c1Step => simp [calm] at hcalm
  | rStep =>
    obtain ⟨k1, k2, k3, k4, k5, k6, k7⟩ := receiverStep_keeps cfg s
    exact calmInv_ofEq hc k1 k2 k3 k4 k5 k6 k7
  | fStep =>
    obtain ⟨k1, k2, k3, k4, k5, k6, k7⟩ := finallyStep_keeps s
    exact calmInv_ofEq hc k1 k2 k3 k4 k5 k6 k7
  | sTimeout =>
    show CalmInv cfg (senderTimeoutStep s)
    unfold senderTimeoutStep
    split
    · refine ⟨hc.no_close, hc.no_cancel, ?_, ?_, ?_, ?_⟩
      · intro hq; rcases hq with hq | hq <;> simp at hq
      · intro hq; simp at hq
      · intro hq; simp at hq
      · intro hq; simp at hq
    · exact hc
  | sStep =>
    show CalmInv cfg (senderStep cfg s)
    cases hpc : s.pcS with
    | sendRunTask =>
      have hso : s.sOutcome = none := sOutcome_none h (by simp [hpc])
      simp only [senderStep, hpc]
      refine ⟨hc.no_close, hc.no_cancel, ?_, ?_, ?_, ?_⟩
      · intro _
        obtain ⟨hi, ha⟩ := hc.early_items (Or.inl hpc)
        refine ⟨hi, ?_⟩
        rw [audioSent_append, ha]
        simp [audioSent]
      · intro hq; simp at hq
      · intro hq; simp at hq
      · intro hq; rw [hso] at hq; cases hq
    | waitStarted =>
      have hso : s.sOutcome = none := sOutcome_none h (by simp [hpc])
      simp only [senderStep, hpc]
      split
      · refine ⟨hc.no_close, hc.no_cancel, ?_, ?_, ?_, ?_⟩
        · intro hq; rcases hq with hq | hq <;> simp at hq
        · intro _ _
          obtain ⟨hi, ha⟩ := hc.early_items (Or.inr hpc)
          rw [hi, ha]
          simp
        · intro hq; simp at hq
        · intro hq; rw [hso] at hq; cases hq
      · exact hc
    | sendLoop =>
      have hso : s.sOutcome = none := sOutcome_none h (by simp [hpc])
      simp only [senderStep, hpc]
      split
      next hit =>
        split
        · refine ⟨hc.no_close, hc.no_cancel, ?_, ?_, ?_, ?_⟩
          · intro hq; rcases hq with hq | hq <;> simp at hq
          · intro hq; simp at hq
          · intro _ hws
            have := hc.loop_rel hpc hws
            rw [hit] at this
            simpa [framesPrefix] using this
          · intro hq; rw [hso] at hq; cases hq
        · exact hc
      next item rest hit =>
        split
        next hcl =>
          rw [hc.no_close] at hcl; cases hcl
        · split
          next _u =>
            refine ⟨hc.no_close, hc.no_cancel, ?_, ?_, ?_, ?_⟩
            · intro hq; rcases hq with hq | hq <;> simp at hq
            · intro hq; simp at hq
            · intro _ hws
              have := hc.loop_rel hpc hws
              rw [hit] at this
              simpa [framesPrefix_cons_none] using this
            · intro hq; rw [hso] at hq; cases hq
          next _u fr =>
            split
            next hws =>
              have hwsf : s.wsClosed = false := by
                revert hws; cases s.wsClosed <;> simp
              refine ⟨hc.no_close, hc.no_cancel, ?_, ?_, ?_, ?_⟩
              · intro hq; rcases hq with hq | hq <;> simp at hq
              · intro _ _
                have := hc.loop_rel hpc hwsf
                rw [hit, framesPrefix_cons_some] at this
                rw [audioSent_append]
                simpa [audioSent, List.append_assoc] using this
              · intro hq; simp at hq
              · intro hq; rw [hso] at hq; cases hq
            next hws =>
              have hwst : s.wsClosed = true := by
                revert hws; cases s.wsClosed <;> simp
              refine ⟨hc.no_close, hc.no_cancel, ?_, ?_, ?_, ?_⟩
              · intro hq; rcases hq with hq | hq <;> simp at hq
              · intro hq; simp at hq
              · intro _ hws'
                rw [hwst] at hws'; cases hws'
              · intro hq; rw [hso] at hq; cases hq
    | finishBlock =>
      have hso : s.sOutcome = none := sOutcome_none h (by simp [hpc])
      simp only [senderStep, hpc]
      split
      next hws =>
        have hwsf : s.wsClosed = false := by
          revert hws; cases s.wsClosed <;> simp
        refine ⟨hc.no_close, hc.no_cancel, ?_, ?_, ?_, ?_⟩
        · intro hq; rcases hq with hq | hq <;> simp at hq
        · intro hq; simp at hq
        · intro hq; simp at hq
        · intro _
          rw [audioSent_append]
          have := hc.finish_rel hpc hwsf
          simpa [audioSent] using this
      next hws =>
        refine ⟨hc.no_close, hc.no_cancel, ?_, ?_, ?_, ?_⟩
        · intro hq; rcases hq with hq | hq <;> simp at hq
        · intro hq; simp at hq
        · intro hq; simp at hq
        · intro hq; simp at hq
    | sdone =>
      simp only [senderStep, hpc]
      exact hc

theorem calm_init (cfg : Cfg) : CalmInv cfg (init cfg) := by
  refine ⟨rfl, rfl, ?_, ?_, ?_, ?_⟩
  · intro _
    exact ⟨rfl, rfl⟩
  · intro hq; simp [init] at hq
  · intro hq; simp [init] at hq
  · intro hq; simp [init] at hq

theorem calm_foldl (cfg : Cfg) (sch : List Choice) :
    ∀ s : Sys, (∀ c ∈ sch, calm c = true) → SessionInv cfg s → CalmInv cfg s →
      CalmInv cfg (sch.foldl (step cfg) s) := by
  induction sch with
  | nil => intro s _ _ hc; exact hc
  | cons c t ih =>
    intro s hall h hc
    exact ih _ (fun d hd => hall d (List.mem_cons_of_mem _ hd))
      (step_inv h c) (calmStep_inv h hc c (hall c (List.mem_cons_self _ _)))

theorem runSched_calm (cfg : Cfg) (sch : List Choice) (hall : ∀ c ∈ sch, calm c = true) :
    CalmInv cfg (runSched cfg sch) :=
  calm_foldl cfg sch _ hall (init_inv cfg) (calm_init cfg)

/-! ## Progress: from any reachable, not fully finished state some thread can move -/

theorem senderCancelStep_pcS {s : Sys} (hcr : s.cancelReq = true) (hS : s.pcS ≠ .sdone) :
    (senderCancelStep s).pcS = .sdone := by
  unfold senderCancelStep
  rw [if_pos]
  simp [hcr, beq_eq_false_iff_ne, hS]

theorem receiverCancelStep_pcR {s : Sys} (hcr : s.cancelReq = true) (hR : s.pcR ≠ .rdone) :
    (receiverCancelStep s).pcR = .rdone := by
  unfold receiverCancelStep
  rw [if_pos]
  simp [hcr, beq_eq_false_iff_ne, hR]

theorem finallyStep_pcF {s : Sys} (hS : s.pcS = .sdone) (hR : s.pcR = .rdone)
    (hF : s.pcF = .finallyBlock) : (finallyStep s).pcF = .fdone := by
  unfold finallyStep
  rw [if_pos (by simp [hS, hR, hF])]
  split <;> rfl

theorem step_c0_pcC0 (cfg : Cfg) (s : Sys) :
    (step cfg s .c0Step).pcC0 = (closerStep s s.pcC0).2 := rfl

theorem step_c1_pcC1 (cfg : Cfg) (s : Sys) :
    (step cfg s .c1Step).pcC1 = (closerStep s s.pcC1).2 := rfl

theorem cancel_progress {cfg : Cfg} {s : Sys} (hcr : s.cancelReq = true)
    (hnmd : mainDone s = false) : ∃ c, step cfg s c ≠ s := by
  by_cases hS : s.pcS = .sdone
  · by_cases hR : s.pcR = .rdone
    · have hF : s.pcF = .finallyBlock := by
        cases hf : s.pcF
        · rfl
        · rw [mainDone, hS, hR, hf] at hnmd; simp at hnmd
      refine ⟨.fStep, fun heq => ?_⟩
      have hp := congrArg Sys.pcF heq
      rw [show (step cfg s .fStep).pcF = (finallyStep s).pcF from rfl,
        finallyStep_pcF hS hR hF, hF] at hp
      cases hp
    · refine ⟨.rCancel, fun heq => ?_⟩
      have hp := congrArg Sys.pcR heq
      rw [show (step cfg s .rCancel).pcR = (receiverCancelStep s).pcR from rfl,
        receiverCancelStep_pcR hcr hR] at hp
      exact hR hp.symm
  · refine ⟨.sCancel, fun heq => ?_⟩
    have hp := congrArg Sys.pcS heq
    rw [show (step cfg s .sCancel).pcS = (senderCancelStep s).pcS from rfl,
      senderCancelStep_pcS hcr hS] at hp
    exact hS hp.symm

theorem closer0_progress {cfg : Cfg} {s : Sys} (h : SessionInv cfg s)
    (hne : s.pcC0 ≠ .cdone) : ∃ c, step cfg s c ≠ s := by
  cases hpc : s.pcC0 with
  | setClosed =>
    refine ⟨.c0Step, fun heq => ?_⟩
    have hp := congrArg Sys.pcC0 heq
    rw [step_c0_pcC0] at hp
    simp [closerStep, hpc] at hp
  | sendNone =>
    refine ⟨.c0Step, fun heq => ?_⟩
    have hp := congrArg Sys.pcC0 heq
    rw [step_c0_pcC0] at hp
    simp [closerStep, hpc] at hp
  | cancelMain =>
    refine ⟨.c0Step, fun heq => ?_⟩
    have hp := congrArg Sys.pcC0 heq
    rw [step_c0_pcC0] at hp
    simp only [closerStep, hpc] at hp
    revert hp
    split <;> simp
  | awaitMain =>
    by_cases hmdt : mainDone s = true
    · refine ⟨.c0Step, fun heq => ?_⟩
      have hp := congrArg Sys.pcC0 heq
      rw [step_c0_pcC0] at hp
      simp only [closerStep, hpc, if_pos hmdt] at hp
      cases hp
    · exact cancel_progress (h.c0_cancel hpc) (by revert hmdt; cases mainDone s <;> simp)
  | closeWs =>
    refine ⟨.c0Step, fun heq => ?_⟩
    have hp := congrArg Sys.pcC0 heq
    rw [step_c0_pcC0] at hp
    simp only [closerStep, hpc] at hp
    revert hp
    split <;> simp
  | closeEventCh =>
    refine ⟨.c0Step, fun heq => ?_⟩
    have hp := congrArg Sys.pcC0 heq
    rw [step_c0_pcC0] at hp
    simp [closerStep, hpc] at hp
  | cdone => exact absurd hpc hne

theorem closer1_progress {cfg : Cfg} {s : Sys} (h : SessionInv cfg s)
    (hne : s.pcC1 ≠ .cdone) : ∃ c, step cfg s c ≠ s := by
  cases hpc : s.pcC1 with
  | setClosed =>
    refine ⟨.c1Step, fun heq => ?_⟩
    have hp := congrArg Sys.pcC1 heq
    rw [step_c1_pcC1] at hp
    simp [closerStep, hpc] at hp
  | sendNone =>
    refine ⟨.c1Step, fun heq => ?_⟩
    have hp := congrArg Sys.pcC1 heq
    rw [step_c1_pcC1] at hp
    simp [closerStep, hpc] at hp
  | cancelMain =>
    refine ⟨.c1Step, fun heq => ?_⟩
    have hp := congrArg Sys.pcC1 heq
    rw [step_c1_pcC1] at hp
    simp only [closerStep, hpc] at hp
    revert hp
    split <;> simp
  | awaitMain =>
    by_cases hmdt : mainDone s = true
    · refine ⟨.c1Step, fun heq => ?_⟩
      have hp := congrArg Sys.pcC1 heq
      rw [step_c1_pcC1] at hp
      simp only [closerStep, hpc, if_pos hmdt] at hp
      cases hp
    · exact cancel_progress (h.c1_cancel hpc) (by revert hmdt; cases mainDone s <;> simp)
  | closeWs =>
    refine ⟨.c1Step, fun heq => ?_⟩
    have hp := congrArg Sys.pcC1 heq
    rw [step_c1_pcC1] at hp
    simp only [closerStep, hpc] at hp
    revert hp
    split <;> simp
  | closeEventCh =>
    refine ⟨.c1Step, fun heq => ?_⟩
    have hp := congrArg Sys.pcC1 heq
    rw [step_c1_pcC1] at hp
    simp [closerStep, hpc] at hp
  | cdone => exact absurd hpc hne

theorem progress {cfg : Cfg} {s : Sys} (h : SessionInv cfg s)
    (hnd : allDone s = false) : ∃ c, step cfg s c ≠ s := by
  by_cases hc0 : s.pcC0 = .cdone
  · by_cases hc1 : s.pcC1 = .cdone
    · have hsome : ¬ (s.pcS = .sdone ∧ s.pcR = .rdone ∧ s.pcF = .fdone) := by
        intro ⟨hS, hR, hF⟩
        rw [allDone, hS, hR, hF, hc0, hc1] at hnd
        simp at hnd
      rcases h.c0_main (Or.inr (Or.inr hc0)) with hmdt | hcr
      · exfalso
        rw [mainDone] at hmdt
        simp only [Bool.and_eq_true, beq_iff_eq] at hmdt
        exact hsome ⟨hmdt.1.1, hmdt.1.2, hmdt.2⟩
      · refine cancel_progress hcr ?_
        cases hq : mainDone s
        · rfl
        · exfalso
          rw [mainDone] at hq
          simp only [Bool.and_eq_true, beq_iff_eq] at hq
          exact hsome ⟨hq.1.1, hq.1.2, hq.2⟩
    · exact closer1_progress h hc1
  · exact closer0_progress h hc0

/-! ## Properties of pyStrip and of event enqueueing -/

theorem head_dropWhile_not (p : Char → Bool) (l : List Char) :
    ∀ x ∈ (l.dropWhile p).head?, p x = false := by
  induction l with
  | nil => intro x hx; cases hx
  | cons a t ih =>
    intro x hx
    rw [List.dropWhile_cons] at hx
    by_cases hp : p a = true
    · rw [if_pos hp] at hx
      exact ih x hx
    · rw [if_neg hp] at hx
      simp only [List.head?_cons, Option.mem_def, Option.some.injEq] at hx
      rw [← hx]
      revert hp; cases p a <;> simp

theorem getLast_dropWhile (p : Char → Bool) (l : List Char) :
    l.dropWhile p ≠ [] → (l.dropWhile p).getLast? = l.getLast? := by
  induction l with
  | nil => intro hh; simp at hh
  | cons a t ih =>
    intro hh
    rw [List.dropWhile_cons] at hh ⊢
    by_cases hp : p a = true
    · rw [if_pos hp] at hh ⊢
      cases ht : t with
      | nil => rw [ht] at hh; simp at hh
      | cons b u =>
        subst ht
        rw [ih hh, List.getLast?_cons_cons]
    · rw [if_neg hp]

theorem dropWhile_eq_self_of_head (p : Char → Bool) (l : List Char)
    (hl : ∀ x ∈ l.head?, p x = false) : l.dropWhile p = l := by
  cases l with
  | nil => rfl
  | cons a t =>
    have := hl a (by simp)
    rw [List.dropWhile_cons, if_neg (by rw [this]; simp)]

theorem pyStrip_idem (s : String) : pyStrip (pyStrip s) = pyStrip s := by
  show pyStrip ⟨(((s.data.dropWhile isPySpace).reverse.dropWhile isPySpace)).reverse⟩ = _
  unfold pyStrip
  have h1 : (((s.data.dropWhile isPySpace).reverse.dropWhile
      isPySpace)).reverse.dropWhile isPySpace =
      (((s.data.dropWhile isPySpace).reverse.dropWhile isPySpace)).reverse := by
    refine dropWhile_eq_self_of_head _ _ ?_
    intro x hx
    rw [List.head?_reverse] at hx
    rcases hm : ((s.data.dropWhile isPySpace).reverse.dropWhile isPySpace) with _ | ⟨b, u⟩
    · rw [hm] at hx; cases hx
    · have hne : (s.data.dropWhile isPySpace).reverse.dropWhile isPySpace ≠ [] := by
        rw [hm]; simp
      have := getLast_dropWhile isPySpace (s.data.dropWhile isPySpace).reverse hne
      rw [this, List.getLast?_reverse] at hx
      exact head_dropWhile_not isPySpace s.data x hx
  rw [h1, List.reverse_reverse]
  have h2 : ((s.data.dropWhile isPySpace).reverse.dropWhile isPySpace).dropWhile
      isPySpace = (s.data.dropWhile isPySpace).reverse.dropWhile isPySpace := by
    refine dropWhile_eq_self_of_head _ _ ?_
    intro x hx
    exact head_dropWhile_not isPySpace _ x hx
  rw [h2]

theorem senderStep_events (cfg : Cfg) (s : Sys) : (senderStep cfg s).events = s.events := by
  unfold senderStep
  split <;> try rfl
  · split <;> rfl
  · split
    · split <;> rfl
    · split
      · rfl
      · split
        · rfl
        · split <;> rfl
  · split <;> rfl

theorem closerStep_events (s : Sys) (pc : CPC) : (closerStep s pc).1.events = s.events := by
  cases pc <;> simp only [closerStep] <;> try rfl
  all_goals split <;> rfl

/-- Every scheduler step only appends to the outbound event queue: events
already enqueued keep their position and order. -/
theorem step_events_mono (cfg : Cfg) (s : Sys) (c : Choice) :
    ∃ new, (step cfg s c).events = s.events ++ new := by
  cases c with
  | sStep =>
    refine ⟨[], ?_⟩
    show (senderStep cfg s).events = _
    rw [senderStep_events]
    simp
  | sTimeout =>
    refine ⟨[], ?_⟩
    show (senderTimeoutStep s).events = _
    unfold senderTimeoutStep
    split <;> simp
  | sCancel =>
    refine ⟨[], ?_⟩
    show (senderCancelStep s).events = _
    unfold senderCancelStep
    split <;> simp
  | rCancel =>
    refine ⟨[], ?_⟩
    show (receiverCancelStep s).events = _
    unfold receiverCancelStep
    split <;> simp
  | fStep =>
    refine ⟨[], ?_⟩
    show (finallyStep s).events = _
    unfold finallyStep
    split
    · split <;> simp
    · simp
  | c0Step => exact ⟨[], by show (closerStep s s.pcC0).1.events = _; rw [closerStep_events]; simp⟩
  | c1Step => exact ⟨[], by show (closerStep s s.pcC1).1.events = _; rw [closerStep_events]; simp⟩
  | rStep =>
    show ∃ new, (receiverStep cfg s).events = s.events ++ new
    unfold receiverStep
    split
    · exact ⟨[], by simp⟩
    · split
      · exact ⟨[], by simp⟩
      · split
        next d heqm =>
          split
          · exact ⟨[], by simp⟩
          · exact ⟨resultEvents cfg.language d.output, rfl⟩
          · exact ⟨[], by simp⟩
          · exact ⟨[], by simp⟩
          · exact ⟨[], by simp⟩
        next heqm => exact ⟨[], by simp⟩
        next heqm => exact ⟨[], by simp⟩

/-! ## The claims -/

/-- C1: in every interleaving of the sender and receiver coroutines (and any
`aclose` callers), no binary audio message is sent over the websocket before
the receiver has processed a `task-started` message and set
`self._task_started_event`: scanning the transport trace from the front,
the `procStarted` action occurs before any `sendAudio` action.  The sender
sends `run-task`, blocks on the event, and only streams audio afterwards. -/
theorem C1_no_audio_before_start (cfg : Cfg) (sch : List Choice) :
    startedBeforeAudio (runSched cfg sch).trace = true :=
  (runSched_inv cfg sch).sba

/-- C2: for one inbound `result-generated` message, with `text` the extracted
(stripped) sentence text: heartbeat or empty text yields zero events;
non-empty text with heartbeat unset yields exactly one event, INTERIM when
`sentence_end` is false and FINAL when it is true; and every scheduler step
only appends to the outbound event queue, so events are enqueued in arrival
order. -/
theorem C2_result_generated_events (language : String) (sen : Sentence) :
    ((sen.heartbeat.getD false = true ∨ pyStrip (sen.text.getD "") = "") →
      resultEvents language { sentence := some sen } = []) ∧
    ((pyStrip (sen.text.getD "") ≠ "" ∧ sen.heartbeat.getD false = false ∧
        sen.sentence_end.getD false = false) →
      resultEvents language { sentence := some sen } =
        [{ type := .INTERIM_TRANSCRIPT,
           alternatives := [{ language := language, text := pyStrip (sen.text.getD ""),
                              confidence := 0.9 }] }]) ∧
    ((pyStrip (sen.text.getD "") ≠ "" ∧ sen.heartbeat.getD false = false ∧
        sen.sentence_end.getD false = true) →
      resultEvents language { sentence := some sen } =
        [{ type := .FINAL_TRANSCRIPT,
           alternatives := [{ language := language, text := pyStrip (sen.text.getD ""),
                              confidence := 0.9 }] }]) ∧
    (∀ (cfg : Cfg) (s : Sys) (c : Choice), ∃ new, (step cfg s c).events = s.events ++ new) := by
  refine ⟨?_, ?_, ?_, step_events_mono⟩
  · intro hq
    rcases hq with hq | hq <;> simp [resultEvents, hq]
  · intro ⟨h1, h2, h3⟩
    simp [resultEvents, h1, h2, h3]
  · intro ⟨h1, h2, h3⟩
    simp [resultEvents, h1, h2, h3]

theorem C2_result_generated_events_witness :
    resultEvents "zh-CN" { sentence := some senHb } = [] ∧
    resultEvents "zh-CN" { sentence := some senHello } =
      [{ type := .INTERIM_TRANSCRIPT,
         alternatives := [{ language := "zh-CN", text := "hello", confidence := 0.9 }] }] ∧
    resultEvents "zh-CN" { sentence := some senDone } =
      [{ type := .FINAL_TRANSCRIPT,
         alternatives := [{ language := "zh-CN", text := "done", confidence := 0.9 }] }] :=
  ⟨(C2_result_generated_events "zh-CN" senHb).1 (Or.inl rfl),
   (C2_result_generated_events "zh-CN" senHello).2.1 ⟨by decide, rfl, rfl⟩,
   (C2_result_generated_events "zh-CN" senDone).2.2.1 ⟨by decide, rfl, rfl⟩⟩

/-- C3 (counterexample): a once-closed, cancelled session in which `aclose`
ran to completion, the Transport was open when the sender was cancelled, and
the finish-task command was sent zero times, not exactly once. -/
theorem C3_counterexample :
    (runSched cexC3cfg cexC3sched).pcC0 = CPC.cdone ∧
    (runSched cexC3cfg cexC3sched).sOutcome = some SOutcome.cancelled ∧
    finishCount (runSched cexC3cfg cexC3sched).trace = 0 := by decide

/-- C3 (amended): in every interleaving, the finish-task command is sent at
most once, exactly when the sender reaches its finish block with the
websocket still open (outcome `finishSent`); it is sent zero times when the
sender is cancelled, times out waiting for the start acknowledgment, or
finds the websocket closed; and no audio frame is ever sent after it. -/
theorem C3_finish_at_most_once (cfg : Cfg) (sch : List Choice) :
    finishCount (runSched cfg sch).trace =
      (if (runSched cfg sch).sOutcome = some SOutcome.finishSent then 1 else 0) ∧
    noAudioAfterFinish (runSched cfg sch).trace = true :=
  ⟨(runSched_inv cfg sch).finish_count, (runSched_inv cfg sch).naf⟩

/-- C4 (counterexample): after the sender timed out, no Failed state exists:
the event channel is open, the websocket is open, the receiver still runs
and delivers a transcript event. -/
theorem C4_counterexample :
    (runSched cexC4cfg [Choice.sStep, Choice.sTimeout, Choice.rStep]).sOutcome =
      some SOutcome.timedOut ∧
    (runSched cexC4cfg [Choice.sStep, Choice.sTimeout, Choice.rStep]).events.length = 1 ∧
    (runSched cexC4cfg [Choice.sStep, Choice.sTimeout, Choice.rStep]).eventChClosed = false ∧
    (runSched cexC4cfg [Choice.sStep, Choice.sTimeout, Choice.rStep]).wsClosed = false ∧
    (runSched cexC4cfg [Choice.sStep, Choice.sTimeout, Choice.rStep]).pcR = RPC.recvLoop := by
  decide

/-- C4 (amended): if the 10-second wait for the start acknowledgment times
out, the sender returns without ever sending a binary audio message or the
finish-task command; no failure state is recorded anywhere. -/
theorem C4_timeout_no_audio (cfg : Cfg) (sch : List Choice)
    (h : (runSched cfg sch).sOutcome = some SOutcome.timedOut) :
    audioSent (runSched cfg sch).trace = [] ∧
    finishCount (runSched cfg sch).trace = 0 := by
  refine ⟨(runSched_inv cfg sch).timeout_no_audio h, ?_⟩
  have hfc := (runSched_inv cfg sch).finish_count
  rw [h] at hfc
  simpa using hfc

theorem C4_timeout_no_audio_witness :
    audioSent (runSched witC4cfg [Choice.sStep, Choice.sTimeout]).trace = [] ∧
    finishCount (runSched witC4cfg [Choice.sStep, Choice.sTimeout]).trace = 0 :=
  C4_timeout_no_audio witC4cfg [Choice.sStep, Choice.sTimeout] (by decide)

/-- C5: in an undisturbed run (no `aclose`, no cancellation) in which the
sender reaches end-of-stream and sends the finish command, the sequence of
binary payloads sent over the websocket equals the byte sequences of the
pushed frames before the end-of-stream sentinel, in push order, with no
reordering, batching, duplication, or dropping. -/
theorem C5_fifo (cfg : Cfg) (sch : List Choice)
    (hall : ∀ c ∈ sch, calm c = true)
    (hfin : (runSched cfg sch).sOutcome = some SOutcome.finishSent) :
    audioSent (runSched cfg sch).trace = framesPrefix cfg.frames0 :=
  (runSched_calm cfg sch hall).sent_rel hfin

theorem C5_fifo_witness :
    audioSent (runSched witC5cfg witC5sched).trace = framesPrefix witC5cfg.frames0 :=
  C5_fifo witC5cfg witC5sched (by decide) (by decide)

/-- C6 counterexample: the claim says the run-task payload's `model` field
equals the configured model name and that the parameters include
`max_sentence_silence_ms: 800`.  The dict literal at lines 157-180 hardcodes
`"model": "paraformer-realtime-v2"` (ignoring `self._model`), so for a
session configured with model "my-custom-model" the wire message differs
from the configuration; and the JSON key actually used is
`max_sentence_silence`, not `max_sentence_silence_ms`. -/
theorem C6_counterexample :
    (run_task_msg "t").payload.model = "paraformer-realtime-v2" ∧
    (run_task_msg "t").payload.model ≠ "my-custom-model" ∧
    List.lookup "max_sentence_silence_ms" (run_task_msg "t").payload.parameters = none ∧
    List.lookup "max_sentence_silence" (run_task_msg "t").payload.parameters =
      some (ParamVal.n 800) := by decide

/-- C6 (amended): for every task id, the run-task message has header
`{action: "run-task", task_id, streaming: "duplex"}` and payload
`{task_group: "audio", task: "asr", function: "recognition"}` with `model`
equal to the string literal "paraformer-realtime-v2" (independent of the
configured model), and its parameters map `format` to "pcm", `sample_rate`
to 16000, `language_hints` to the literal ["zh"],
`punctuation_prediction_enabled` and `inverse_text_normalization_enabled`
to true, and `max_sentence_silence` (no `_ms` suffix) to 800, with no
`max_sentence_silence_ms` key. -/
theorem C6_run_task_message (task_id : String) :
    (run_task_msg task_id).header =
      { action := "run-task", task_id := task_id, streaming := "duplex" } ∧
    (run_task_msg task_id).payload.task_group = "audio" ∧
    (run_task_msg task_id).payload.task = "asr" ∧
    (run_task_msg task_id).payload.function = "recognition" ∧
    (run_task_msg task_id).payload.model = "paraformer-realtime-v2" ∧
    List.lookup "format" (run_task_msg task_id).payload.parameters =
      some (ParamVal.s "pcm") ∧
    List.lookup "sample_rate" (run_task_msg task_id).payload.parameters =
      some (ParamVal.n 16000) ∧
    List.lookup "language_hints" (run_task_msg task_id).payload.parameters =
      some (ParamVal.strs ["zh"]) ∧
    List.lookup "punctuation_prediction_enabled" (run_task_msg task_id).payload.parameters =
      some (ParamVal.b true) ∧
    List.lookup "inverse_text_normalization_enabled" (run_task_msg task_id).payload.parameters =
      some (ParamVal.b true) ∧
    List.lookup "max_sentence_silence" (run_task_msg task_id).payload.parameters =
      some (ParamVal.n 800) ∧
    List.lookup "max_sentence_silence_ms" (run_task_msg task_id).payload.parameters = none := by
  refine ⟨rfl, rfl, rfl, rfl, rfl, rfl, rfl, rfl, rfl, rfl, rfl, rfl⟩

/-- C7 (counterexample): the receiver stopped on task-failed, but the output
event stream is not closed and carries no error indication. -/
theorem C7_counterexample :
    (runSched cexC7cfg [Choice.rStep]).rOutcome =
      some (ROutcome.failed (some "X") (some "boom")) ∧
    (runSched cexC7cfg [Choice.rStep]).pcR = RPC.rdone ∧
    (runSched cexC7cfg [Choice.rStep]).eventChClosed = false ∧
    (runSched cexC7cfg [Choice.rStep]).events = [] := by decide

/-- C7 (amended): upon task-finished or task-failed the receiver stops
receiving (its loop is done, and the remote error code and message are only
logged); the output event stream is closed only by an `aclose` call running
to its `self._event_ch.close()` line, never by the receiver. -/
theorem C7_terminal_events (cfg : Cfg) (sch : List Choice) :
    ((runSched cfg sch).rOutcome = some ROutcome.finished →
      (runSched cfg sch).pcR = RPC.rdone) ∧
    (∀ code msg, (runSched cfg sch).rOutcome = some (ROutcome.failed code msg) →
      (runSched cfg sch).pcR = RPC.rdone) ∧
    ((runSched cfg sch).eventChClosed = true →
      (runSched cfg sch).pcC0 = CPC.cdone ∨ (runSched cfg sch).pcC1 = CPC.cdone) := by
  have h := runSched_inv cfg sch
  exact ⟨fun hh => h.r_outcome.mp (by simp [hh]),
    fun c m hh => h.r_outcome.mp (by simp [hh]), h.evch⟩

theorem C7_terminal_events_witness :
    (runSched witC7cfg witC7sched).pcR = RPC.rdone ∧
    ((runSched witC7cfg witC7sched).pcC0 = CPC.cdone ∨
      (runSched witC7cfg witC7sched).pcC1 = CPC.cdone) :=
  ⟨(C7_terminal_events witC7cfg witC7sched).1 (by decide),
   (C7_terminal_events witC7cfg witC7sched).2.2 (by decide)⟩

/-- C8: in every interleaving with up to two concurrent `aclose` callers,
the underlying websocket teardown happens at most once; once a closer has
returned, the websocket is closed, and it was torn down by exactly one local
`ws.close()` call (unless the peer had already closed the connection); and
from any state in which some thread has not returned, some thread can still
take a step, so the shutdown protocol cannot deadlock. -/
theorem C8_close_idempotent (cfg : Cfg) (sch : List Choice) :
    (runSched cfg sch).teardown ≤ 1 ∧
    ((runSched cfg sch).pcC0 = CPC.cdone →
      (runSched cfg sch).wsClosed = true ∧
      ((runSched cfg sch).rOutcome ≠ some ROutcome.wsEOF →
        (runSched cfg sch).teardown = 1)) ∧
    (allDone (runSched cfg sch) = false →
      ∃ c, step cfg (runSched cfg sch) c ≠ runSched cfg sch) := by
  have h := runSched_inv cfg sch
  refine ⟨?_, ?_, progress h⟩
  · rcases hb : (runSched cfg sch).wsClosed with _ | _
    · rw [h.td_zero hb]
      decide
    · rcases h.td_one hb with h1 | ⟨_, h0⟩
      · rw [h1]
      · rw [h0]
        decide
  · intro hcd
    have hws := h.c0_ws (Or.inr hcd)
    refine ⟨hws, fun hne => ?_⟩
    rcases h.td_one hws with h1 | ⟨h2, _⟩
    · exact h1
    · exact absurd h2 hne

theorem C8_close_idempotent_witness :
    (runSched witC8cfg witC8sched).teardown = 1 ∧
    (∃ c, step witC8cfg (runSched witC8cfg [Choice.sStep]) c ≠
      runSched witC8cfg [Choice.sStep]) :=
  ⟨((C8_close_idempotent witC8cfg witC8sched).2.1 (by decide)).2 (by decide),
   (C8_close_idempotent witC8cfg [Choice.sStep]).2.2 (by decide)⟩

/-- C9 (counterexample): the run-task header carries the sender-local uuid,
which differs from the session's `_task_id` field. -/
theorem C9_counterexample :
    (runSched cexC9cfg [Choice.sStep]).trace =
      [Act.sendRun "3f2504e0-4f89-11d3-9a0c-0305e82c3301"] ∧
    sessionTaskId cexC9cfg = "task-abc123" ∧
    "3f2504e0-4f89-11d3-9a0c-0305e82c3301" ≠ "task-abc123" := by decide

/-- C9 (amended): per session at most one run-task command is ever sent, and
every run-task and finish-task header on the wire carries the single
identifier generated inside `_send_audio_task` (stable for the session's
lifetime); the session's `_task_id` field is a distinct, unused value. -/
theorem C9_task_id_stable (cfg : Cfg) (sch : List Choice) :
    wireTaskIdsOk (senderTaskId cfg) (runSched cfg sch).trace = true ∧
    runCount (runSched cfg sch).trace ≤ 1 :=
  ⟨(runSched_inv cfg sch).wire_ids, (runSched_inv cfg sch).run_le⟩

/-- C10: every transcript event carries the session's configured language
and confidence exactly 0.9, its text is non-empty and stable under
stripping (no leading or trailing whitespace); a whitespace-only text is
suppressed like empty text, and a payload without a `sentence` field
produces no event and no error (processing simply continues). -/
theorem C10_event_fields (language : String) (output : MsgOutput) :
    (output.sentence = none → resultEvents language output = []) ∧
    (∀ sen, output.sentence = some sen → pyStrip (sen.text.getD "") = "" →
      resultEvents language output = []) ∧
    (∀ ev ∈ resultEvents language output, ∀ alt ∈ ev.alternatives,
      alt.language = language ∧ alt.confidence = 0.9 ∧ alt.text ≠ "" ∧
      pyStrip alt.text = alt.text) := by
  refine ⟨?_, ?_, ?_⟩
  · intro hq
    simp [resultEvents, hq]
  · intro sen hq hstrip
    simp [resultEvents, hq, hstrip]
  · intro ev hev alt halt
    unfold resultEvents at hev
    rcases hsen : output.sentence with _ | sen
    · rw [hsen] at hev; cases hev
    · rw [hsen] at hev
      simp only at hev
      split at hev
      · next hcond =>
        simp only [List.mem_singleton] at hev
        rw [hev] at halt
        simp only [List.mem_singleton] at halt
        rw [halt]
        exact ⟨rfl, rfl, hcond.1, pyStrip_idem _⟩
      · cases hev

theorem C10_event_fields_witness :
    resultEvents "zh-CN" { sentence := none } = [] ∧
    resultEvents "zh-CN" witC10out2 = [] ∧
    ∀ ev ∈ resultEvents "zh-CN" witC10out, ∀ alt ∈ ev.alternatives,
      alt.language = "zh-CN" ∧ alt.confidence = 0.9 ∧ alt.text ≠ "" ∧
      pyStrip alt.text = alt.text :=
  ⟨(C10_event_fields "zh-CN" { sentence := none }).1 rfl,
   (C10_event_fields "zh-CN" witC10out2).2.1 _ rfl (by decide),
   (C10_event_fields "zh-CN" witC10out).2.2⟩
